import Mathlib

/-
Verification of the pyorg org-mode AST / conversion library.

Shallow embedding of the parts of the code base the claims concern:
  - pyorg/util.py    : SingleDispatchBase (dispatch, register), parse_iso_date
  - pyorg/ast.py     : OrgNode item access, OrgTableNode.blocks,
                       OrgDocument.assign_header_ids and _make_header_id,
                       dispatch_node_type (ChainMap layering)
  - pyorg/io.py      : _from_json / _node_from_json / _mapping_from_json
  - pyorg/convert/html/element.py  : HtmlElement, TextNode, _write_html_recursive
  - pyorg/convert/html/converter.py: OrgHtmlConverter (default element
    construction, inline whitespace, lists, tables)

Python dicts are modelled as insertion-ordered association lists, machine
integers as Int/Nat (no overflow is possible in the modelled code paths),
and raised exceptions as Except results.
-/

namespace Pyorg

/-! ## Python dictionaries and ChainMap -/

/-- Lookup in an insertion-ordered association list standing in for a Python
dict (first binding of the key wins; real dicts never hold duplicate keys). -/
def dictGet {V : Type} : List (String × V) → String → Option V
  | [], _ => none
  | (k2, v) :: rest, k => if k2 = k then some v else dictGet rest k

/-- Python dict assignment: replace the binding in place if the key is
present, else append a new binding (insertion order preserved). -/
def dictSet {V : Type} : List (String × V) → String → V → List (String × V)
  | [], k, v => [(k, v)]
  | (k2, v2) :: rest, k, v =>
      if k2 = k then (k2, v) :: rest else (k2, v2) :: dictSet rest k v

/-- collections.ChainMap: a nonempty sequence of dict layers.  Lookup
searches the layers left to right; assignment writes to the first layer. -/
structure PyChainMap (V : Type) where
  first : List (String × V)
  rest : List (List (String × V))

/-- Lookup across the trailing layers of a ChainMap. -/
def chainGetLayers {V : Type} : List (List (String × V)) → String → Option V
  | [], _ => none
  | d :: ds, k =>
      match dictGet d k with
      | some v => some v
      | none => chainGetLayers ds k

/-- ChainMap.__getitem__: first layer, then the remaining layers in order. -/
def PyChainMap.get {V : Type} (cm : PyChainMap V) (k : String) : Option V :=
  match dictGet cm.first k with
  | some v => some v
  | none => chainGetLayers cm.rest k

/-- ChainMap.__setitem__: writes into maps[0], the first layer. -/
def PyChainMap.set {V : Type} (cm : PyChainMap V) (k : String) (v : V) :
    PyChainMap V :=
  { cm with first := dictSet cm.first k v }

/-! ## SingleDispatchBase (pyorg/util.py) and DispatchNodeType (pyorg/ast.py) -/

/-- util.SingleDispatchBase: a generic function with a default implementation
and a registry of specialised implementations.  `iterKeys` plays the role of
the iter_keys method (the default yields the single key get_key(arg)).  The
registry is a ChainMap so that the layered construction of
ast.dispatch_node_type can be expressed; a plain dict registry is the
one-layer case. -/
structure SingleDispatchBase (A V : Type) where
  iterKeys : A → List String
  default : V
  registry : PyChainMap V

/-- The loop body of SingleDispatchBase.dispatch: return registry[key] for
the first key that is present (a KeyError is caught and the next key tried). -/
def dispatchLoop {V : Type} : List String → PyChainMap V → Option V
  | [], _ => none
  | k :: ks, reg =>
      match reg.get k with
      | some v => some v
      | none => dispatchLoop ks reg

/-- SingleDispatchBase.dispatch: try registry[key] for each key produced by
iter_keys, falling back to the default implementation. -/
def SingleDispatchBase.dispatch {A V : Type} (f : SingleDispatchBase A V)
    (arg : A) : V :=
  match dispatchLoop (f.iterKeys arg) f.registry with
  | some v => v
  | none => f.default

/-- SingleDispatchBase.register for a single key (validate_key of
DispatchNodeType is the identity on known type names; the registration
performs registry[key] = impl, which on a ChainMap writes to the first
layer). -/
def SingleDispatchBase.register {A V : Type} (f : SingleDispatchBase A V)
    (key : String) (impl : V) : SingleDispatchBase A V :=
  { f with registry := f.registry.set key impl }

/-! ## The org AST node model (pyorg/ast.py, class OrgNode) -/

/-- A scalar property value of an org AST node (entries of
OrgNode.properties).  The claims under verification only exercise scalar
property values. -/
inductive PropVal where
  | none
  | bool (b : Bool)
  | int (i : Int)
  | str (s : String)
deriving DecidableEq

mutual
/-- ast.OrgNode restricted to the fields the verified code paths read:
its type name (OrgNodeType.name), its properties dict and its contents
list.  keywords, ref and meta never influence the verified operations. -/
inductive ONode where
  | mk (typeName : String) (properties : List (String × PropVal))
      (contents : List OItem)
/-- One entry of OrgNode.contents: a child node or a plain string. -/
inductive OItem where
  | node (n : ONode)
  | text (s : String)
end

def ONode.typeName : ONode → String
  | .mk t _ _ => t

def ONode.properties : ONode → List (String × PropVal)
  | .mk _ p _ => p

def ONode.contents : ONode → List OItem
  | .mk _ _ c => c

/-- node.properties.get(key, default) with default PropVal.none, the pattern
used for optional properties such as post-blank. -/
def ONode.propGet (n : ONode) (k : String) (dflt : PropVal) : PropVal :=
  (dictGet n.properties k).getD dflt

/-! ## OrgNode sequence and mapping access (OrgNode.__getitem__ and friends) -/

/-- A Python key passed to OrgNode.__getitem__: an int, a str, or a value of
any other type. -/
inductive PyKey where
  | int (i : Int)
  | str (s : String)
  | other

/-- The value returned by OrgNode.__getitem__: a contents item for int keys,
a property value for str keys. -/
inductive GotItem where
  | content (c : OItem)
  | prop (v : PropVal)

/-- Python list indexing list[i]: negative indices count from the end,
anything out of range raises IndexError. -/
def pyListGet {α : Type} (l : List α) (i : Int) : Except String α :=
  let j : Int := if i < 0 then i + l.length else i
  if h : 0 ≤ j ∧ j < l.length then
    .ok (l.get ⟨j.toNat, by omega⟩)
  else
    .error "IndexError"

/-- OrgNode.__getitem__: int keys index `contents`, str keys index
`properties`, any other key type raises TypeError. -/
def ONode.getitem (n : ONode) : PyKey → Except String GotItem
  | .int i => (pyListGet n.contents i).map .content
  | .str k =>
      match dictGet n.properties k with
      | some v => .ok (.prop v)
      | none => .error "KeyError"
  | .other => .error "TypeError: Expected str or int"

/-- OrgNode.__len__ = len(self.contents). -/
def ONode.len (n : ONode) : Nat := n.contents.length

/-- OrgNode.__iter__ = iter(self.contents): iterating a node yields its
contents in order. -/
def ONode.iter (n : ONode) : List OItem := n.contents

/-! ## DispatchNodeType and dispatch_node_type (pyorg/ast.py) -/

/-- ast.DispatchNodeType: get_key(node) = node.type.name, so iter_keys
yields that single key. -/
abbrev DispatchNodeType (V : Type) := SingleDispatchBase ONode V

/-- Construct a DispatchNodeType from a default implementation and a
registry, as the decorator returned by dispatch_node_type does. -/
def DispatchNodeType.mk {V : Type} (default : V) (registry : PyChainMap V) :
    DispatchNodeType V :=
  { iterKeys := fun n => [n.typeName], default := default, registry := registry }

/-- ast.dispatch_node_type with no parent: registry = a fresh empty dict. -/
def dispatchNodeType {V : Type} (default : V) : DispatchNodeType V :=
  DispatchNodeType.mk default { first := [], rest := [] }

/-- ast.dispatch_node_type with a parent table: the source builds
ChainMap(parent, dict()), i.e. the parent dict is maps[0] (searched first
and the target of writes) and the fresh empty dict is maps[1]. -/
def dispatchNodeTypeWithParent {V : Type} (parent : List (String × V))
    (default : V) : DispatchNodeType V :=
  DispatchNodeType.mk default { first := parent, rest := [[]] }

/-- Dispatch of a DispatchNodeType on a node (get_key = type name). -/
def DispatchNodeType.dispatchNode {V : Type} (f : DispatchNodeType V)
    (n : ONode) : V :=
  SingleDispatchBase.dispatch f n

/-! ## Header id assignment (OrgDocument.assign_header_ids, _make_header_id) -/

/-- Whether a character is kept by the regex class complement in
_make_header_id, which substitutes runs matching the pattern of one or more
characters outside word characters, underscore and hyphen.  Char.isAlphanum
is the ASCII word-character class [A-Za-z0-9]; the Python class is
Unicode-aware and additionally keeps non-ASCII word characters such as
accented letters, so this model agrees with the source exactly on ASCII
characters, and the slug statements proved below carry an explicit
ASCII-title hypothesis. -/
def slugKeep (c : Char) : Bool :=
  c.isAlphanum || c = '_' || c = '-'

/-- Whether every character of a string is ASCII: the domain on which
slugKeep coincides with the Unicode word-character class of the source
regex. -/
def isAsciiString (s : String) : Bool :=
  s.toList.all (fun c => c.toNat < 128)

/-- re.sub over a character list: replace every maximal nonempty run of
characters failing slugKeep with a single hyphen.  inRun records whether
the previous character belonged to such a run (its hyphen already
emitted). -/
def slugSubChars : List Char → Bool → List Char
  | [], _ => []
  | c :: cs, inRun =>
      if slugKeep c then c :: slugSubChars cs false
      else if inRun then slugSubChars cs true
      else '-' :: slugSubChars cs true

/-- str.strip of hyphens: drop leading and trailing hyphen characters. -/
def stripHyphens (l : List Char) : List Char :=
  ((l.dropWhile (fun c => c = '-')).reverse.dropWhile (fun c => c = '-')).reverse

/-- The base slug computed inside _make_header_id: the regex substitution
followed by str.strip of hyphens.  The source does not lowercase the
title.  Faithful to the source for ASCII titles; on non-ASCII titles the
Unicode word-character class of the source keeps characters this model
replaces (see slugKeep). -/
def slugBase (title : String) : String :=
  String.mk (stripHyphens (slugSubChars title.toList false))

/-- Split a character list into maximal runs of characters agreeing on
slugKeep (the maximal runs of characters outside the slug set, and the
stretches of kept characters separating them). -/
def slugRuns : List Char → List (List Char)
  | [] => []
  | c :: cs =>
      match slugRuns cs with
      | [] => [[c]]
      | run :: runs =>
          match run with
          | [] => [c] :: runs
          | d :: _ =>
              if slugKeep c = slugKeep d then (c :: run) :: runs
              else [c] :: run :: runs

/-- Render one maximal run as the spec describes: a run of kept characters
stays, a maximal run of characters outside the set becomes one hyphen. -/
def runRender (run : List Char) : List Char :=
  if run.any slugKeep then run else ['-']

/-- Modelled from the wording of the spec, without the claimed lowercasing
step: replace every maximal run of characters outside the slug set with a
single hyphen, then strip leading and trailing hyphens. -/
def specSlugNoLower (title : String) : String :=
  String.mk (stripHyphens ((slugRuns title.toList).map runRender).flatten)

/-- The base-slug derivation exactly as the claim words it: lowercase the
title, replace every maximal run of characters outside the slug set with a
single hyphen, strip leading and trailing hyphens. -/
def claimedSlug (title : String) : String :=
  specSlugNoLower (String.mk (title.toList.map Char.toLower))

/-- The decimal digits of n little-endian, with explicit fuel (n itself is
always enough fuel since n / 10 < n). -/
def natDigitsRev (fuel : Nat) (n : Nat) : List Nat :=
  match fuel with
  | 0 => []
  | fuel + 1 => if n = 0 then [] else n % 10 :: natDigitsRev fuel (n / 10)

/-- Decimal rendering of a natural number as the %d format produces it. -/
def natRepr (n : Nat) : String :=
  if n = 0 then "0"
  else String.mk ((natDigitsRev n n).reverse.map Nat.digitChar)

/-- The value of a little-endian decimal digit list, the inverse used to
prove natRepr injective. -/
def digitsRevVal : List Nat → Nat
  | [] => 0
  | d :: ds => d + 10 * digitsRevVal ds

/-- The i-th candidate id tried by the while loop of _make_header_id:
candidate 1 is the base slug itself, candidate i for larger i appends a
hyphen and the decimal rendering of i. -/
def candidateId (base : String) (i : Nat) : String :=
  if i ≤ 1 then base else base ++ "-" ++ natRepr i

/-- The while loop of _make_header_id: starting from candidate index i,
return the first candidate not in assigned.  The fuel bounds the number of
iterations; assigned.length + 1 iterations always suffice because
candidateId is injective, so the fuelled loop computes the same id as the
unbounded Python loop. -/
def freshIdLoop (base : String) (assigned : List String) :
    Nat → Nat → String
  | i, 0 => candidateId base i
  | i, fuel + 1 =>
      let id := candidateId base i
      if id ∈ assigned then freshIdLoop base assigned (i + 1) fuel else id

/-- OrgDocument._make_header_id: derive the base slug from the title and
append -2, -3, ... while the candidate is already a key of assigned. -/
def makeHeaderId (title : String) (assigned : List String) : String :=
  freshIdLoop (slugBase title) assigned 1 (assigned.length + 1)

/-- An outline node as id assignment sees it: a title and the nested
subheadings (the other OrgHeadlineNode fields play no role here). -/
inductive Outline where
  | mk (title : String) (subs : List Outline)

def Outline.title : Outline → String
  | .mk t _ => t

def Outline.subs : Outline → List Outline
  | .mk _ s => s

mutual
/-- OrgDocument._assign_header_ids: compute and record the id of this
header, then recurse into its subheadings while depth exceeds 1.  The
assigned dict is modelled by its key list in insertion order. -/
def assignHeader : Outline → List String → Nat → List String
  | .mk t subs, assigned, depth =>
      let id := makeHeaderId t assigned
      let assigned2 := assigned ++ [id]
      if 1 < depth then assignHeaderList subs assigned2 (depth - 1)
      else assigned2
termination_by structural h => h
def assignHeaderList : List Outline → List String → Nat → List String
  | [], assigned, _ => assigned
  | h :: hs, assigned, depth =>
      assignHeaderList hs (assignHeader h assigned depth) depth
termination_by structural l => l
end

/-- OrgDocument.assign_header_ids: walk the root subheadings in document
order with the given depth budget, returning the assigned ids in the order
of assignment. -/
def assignHeaderIds (rootSubs : List Outline) (depth : Nat) : List String :=
  assignHeaderList rootSubs [] depth

/-! ## parse_iso_date (pyorg/util.py) -/

/-- The result of parse_iso_date: a datetime.date when the string has no
time component, else a datetime.datetime whose tzinfo is either absent or
a fixed offset in minutes (timezone.utc being offset 0). -/
inductive PyDateTime where
  | date (year month day : Nat)
  | datetime (year month day hour minute second microsecond : Nat)
      (tzOffsetMinutes : Option Int)
deriving DecidableEq

/-- Numeric value of a decimal digit character. -/
def digitVal (c : Char) : Nat := c.toNat - 48

/-- Value of a list of decimal digit characters, most significant first. -/
def digitsVal (l : List Char) : Nat :=
  l.foldl (fun acc c => acc * 10 + digitVal c) 0

/-- Whether a year is a Gregorian leap year (datetime module rules). -/
def isLeapYear (y : Nat) : Bool :=
  y % 4 = 0 && (y % 100 ≠ 0 || y % 400 = 0)

/-- Days in a month, as datetime.date validity checking uses. -/
def daysInMonth (y m : Nat) : Nat :=
  if m = 2 then (if isLeapYear y then 29 else 28)
  else if m = 4 || m = 6 || m = 9 || m = 11 then 30
  else 31

/-- Validity condition under which datetime.date(y, m, d) succeeds. -/
def validDate (y m d : Nat) : Bool :=
  1 ≤ y && y ≤ 9999 && 1 ≤ m && m ≤ 12 && 1 ≤ d && d ≤ daysInMonth y m

/-- Validity condition of the time fields of datetime.datetime. -/
def validTime (h mi s : Nat) : Bool :=
  h ≤ 23 && mi ≤ 59 && s ≤ 59

/-- The date regex of parse_iso_date: four year digits, optionally a hyphen
and two month digits, optionally another hyphen and two day digits; missing
groups default to 1. -/
def parseDatePart : List Char → Option (Nat × Nat × Nat)
  | [a, b, c, d] =>
      if [a, b, c, d].all Char.isDigit then
        some (digitsVal [a, b, c, d], 1, 1)
      else none
  | [a, b, c, d, '-', e, f] =>
      if [a, b, c, d, e, f].all Char.isDigit then
        some (digitsVal [a, b, c, d], digitsVal [e, f], 1)
      else none
  | [a, b, c, d, '-', e, f, '-', g, h] =>
      if [a, b, c, d, e, f, g, h].all Char.isDigit then
        some (digitsVal [a, b, c, d], digitsVal [e, f], digitsVal [g, h])
      else none
  | _ => none

/-- int(frac[:6].ljust(6, zero)): the fractional-second digits truncated or
right-padded with zeros to microsecond precision. -/
def microOfFrac (frac : List Char) : Nat :=
  digitsVal (frac.take 6 ++ List.replicate (6 - frac.length) '0')

/-- The time regex of parse_iso_date: two hour digits, optionally colon and
two minute digits, optionally colon and two second digits, optionally a dot
and one or more fractional digits; missing groups default to 0. -/
def parseTimePart : List Char → Option (Nat × Nat × Nat × Nat)
  | [a, b] =>
      if [a, b].all Char.isDigit then some (digitsVal [a, b], 0, 0, 0)
      else none
  | [a, b, ':', c, d] =>
      if [a, b, c, d].all Char.isDigit then
        some (digitsVal [a, b], digitsVal [c, d], 0, 0)
      else none
  | [a, b, ':', c, d, ':', e, f] =>
      if [a, b, c, d, e, f].all Char.isDigit then
        some (digitsVal [a, b], digitsVal [c, d], digitsVal [e, f], 0)
      else none
  | a :: b :: ':' :: c :: d :: ':' :: e :: f :: '.' :: frac =>
      if ([a, b, c, d, e, f].all Char.isDigit && frac.all Char.isDigit
          && !frac.isEmpty) then
        some (digitsVal [a, b], digitsVal [c, d], digitsVal [e, f],
          microOfFrac frac)
      else none
  | _ => none

/-- The timezone handling of parse_iso_date: empty means a naive result,
Z means UTC, otherwise a sign, two hour digits, a colon and two minute
digits; datetime.timezone additionally requires the offset to lie strictly
within one day.  Returns none when a ValueError would be raised. -/
def parseTzPart : List Char → Option (Option Int)
  | [] => some none
  | ['Z'] => some (some 0)
  | [sgn, a, b, ':', c, d] =>
      if (sgn = '+' || sgn = '-') && [a, b, c, d].all Char.isDigit then
        let m : Int := (digitsVal [a, b] : Nat) * 60 + (digitsVal [c, d] : Nat)
        let off : Int := if sgn = '+' then m else -m
        if -1440 < off && off < 1440 then some (some off) else none
      else none
  | _ => none

/-- The body of parse_iso_date after the outer split regex: the string is a
nonempty run of digits and hyphens, optionally followed by the letter T, a
nonempty run of digits, colons and dots, and a trailing timezone part. -/
def parseIsoCore (l : List Char) : Option PyDateTime :=
  let datepart := l.takeWhile (fun c => c.isDigit || c = '-')
  let restAll := l.dropWhile (fun c => c.isDigit || c = '-')
  if datepart.isEmpty then none
  else
    match parseDatePart datepart with
    | none => none
    | some (y, mo, da) =>
      if !validDate y mo da then none
      else
        match restAll with
        | [] => some (.date y mo da)
        | 'T' :: afterT =>
            let timepart := afterT.takeWhile
              (fun c => c.isDigit || c = ':' || c = '.')
            let tzpart := afterT.dropWhile
              (fun c => c.isDigit || c = ':' || c = '.')
            if timepart.isEmpty then none
            else
              match parseTimePart timepart with
              | none => none
              | some (h, mi, s, us) =>
                if !validTime h mi s then none
                else
                  match parseTzPart tzpart with
                  | none => none
                  | some tz => some (.datetime y mo da h mi s us tz)
        | _ => none

/-- util.parse_iso_date: any internal failure (a failed assert on a regex,
or a ValueError from the date, datetime or timezone constructors) is caught
and re-raised as one ValueError naming the input. -/
def parseIsoDate (s : String) : Except String PyDateTime :=
  match parseIsoCore s.toList with
  | some v => .ok v
  | none => .error ("Invalid ISO8601 time: " ++ s)

/-! ## JSON deserialization (pyorg/io.py) -/

mutual
/-- A JSON value as iopy receives it from the exporter. -/
inductive Json where
  | null
  | bool (b : Bool)
  | num (n : Int)
  | str (s : String)
  | arr (items : JsonList)
  | obj (fields : JsonFields)
/-- A JSON array, spelled out so that mutual recursion and induction stay
structural. -/
inductive JsonList where
  | nil
  | cons (head : Json) (tail : JsonList)
/-- The fields of a JSON object in document order. -/
inductive JsonFields where
  | nil
  | cons (key : String) (val : Json) (tail : JsonFields)
end

/-- Lookup of a key in a JSON object. -/
def JsonFields.lookup : JsonFields → String → Option Json
  | .nil, _ => none
  | .cons k v tl, key => if k = key then some v else tl.lookup key

mutual
/-- A deserialized value as io._from_json builds it.  An error record
deserializes to null (Python None); a node record never deserializes,
because _node_from_json passes the keyword argument props to constructors
whose parameter is named properties, raising a TypeError (see
nodeFromJson). -/
inductive OrgValue where
  | null
  | bool (b : Bool)
  | num (n : Int)
  | str (s : String)
  | list (items : OrgValueList)
  | dict (fields : OrgValueFields)
inductive OrgValueList where
  | nil
  | cons (head : OrgValue) (tail : OrgValueList)
inductive OrgValueFields where
  | nil
  | cons (key : String) (val : OrgValue) (tail : OrgValueFields)
end

/-- The data-type tag key of exported JSON objects. -/
def jsonTypeKey : String := "$$data_type"

mutual
/-- io._from_json.  The pair holds the produced value and, in order, the
message payloads of the Parse error lines printed for error records; a
raised exception is an Except error.  For an object, data.pop of the tag
key (default mapping) selects the branch; an unknown tag raises ValueError.
-/
def fromJson : Json → Except String (OrgValue × List Json)
  | .null => .ok (.null, [])
  | .bool b => .ok (.bool b, [])
  | .num n => .ok (.num n, [])
  | .str s => .ok (.str s, [])
  | .arr items =>
      match fromJsonList items with
      | .ok (vs, logs) => .ok (.list vs, logs)
      | .error e => .error e
  | .obj fields =>
      match fields.lookup jsonTypeKey with
      | none => fromJsonMapping fields
      | some (.str tag) =>
          if tag = "org-node" then
            -- io._node_from_json: reads the type and ref fields,
            -- recursively converts properties, contents and keywords, and
            -- then calls the node class as cls(type_, props=props,
            -- contents=contents, keywords=keywords, ref=ref).
            -- OrgNode.__init__ has no parameter named props (it is named
            -- properties), so the call raises TypeError for every node
            -- class; the conversions before it run first and may raise
            -- their own errors.
            if (fields.lookup "type").isNone then .error "KeyError: type"
            else if (fields.lookup "ref").isNone then .error "KeyError: ref"
            else
              match convertKeyAsMapping fields "properties" with
              | .error e => .error e
              | .ok _ =>
                  match convertKeyAsList fields "contents" with
                  | .error e => .error e
                  | .ok _ =>
                      match convertKeyOptAsMapping fields "keywords" with
                      | .error e => .error e
                      | .ok _ =>
                          .error "TypeError: unexpected keyword argument props"
          else if tag = "mapping" then fromJsonMapping fields
          else if tag = "error" then
            match fields.lookup "message" with
            | some msg => .ok (.null, [msg])
            | none => .error "KeyError: message"
          else .error "ValueError"
      | some _ => .error "ValueError"
termination_by structural j => j
/-- The recursion of _from_json over a JSON array. -/
def fromJsonList : JsonList → Except String (OrgValueList × List Json)
  | .nil => .ok (.nil, [])
  | .cons x tl =>
      match fromJson x with
      | .error e => .error e
      | .ok (v, logs) =>
          match fromJsonList tl with
          | .error e => .error e
          | .ok (vs, logs2) => .ok (.cons v vs, logs ++ logs2)
termination_by structural l => l
/-- io._mapping_from_json: convert each field, skipping the data-type tag
key.  Operating on the original fields equals operating on the popped dict,
since real JSON objects carry a key at most once. -/
def fromJsonMapping : JsonFields → Except String (OrgValue × List Json)
  | .nil => .ok (.dict .nil, [])
  | .cons k v tl =>
      if k = jsonTypeKey then fromJsonMapping tl
      else
        match fromJson v with
        | .error e => .error e
        | .ok (v2, logs) =>
            match fromJsonMapping tl with
            | .error e => .error e
            | .ok (.dict fs, logs2) => .ok (.dict (.cons k v2 fs), logs ++ logs2)
            | .ok _ => .error "unreachable"
termination_by structural fs => fs
/-- Convert the value stored under a required key as a mapping (used for
the properties field of a node record; KeyError when absent). -/
def convertKeyAsMapping : JsonFields → String →
    Except String (OrgValue × List Json)
  | .nil, _ => .error "KeyError"
  | .cons k v tl, key =>
      if k = key then
        match v with
        | .obj fs => fromJsonMapping fs
        | _ => .error "TypeError: not a mapping"
      else convertKeyAsMapping tl key
termination_by structural fs k => fs
/-- Convert the value stored under a required key as a list of values (the
contents field of a node record; KeyError when absent). -/
def convertKeyAsList : JsonFields → String →
    Except String (OrgValueList × List Json)
  | .nil, _ => .error "KeyError"
  | .cons k v tl, key =>
      if k = key then
        match v with
        | .arr items => fromJsonList items
        | _ => .error "TypeError: not iterable"
      else convertKeyAsList tl key
termination_by structural fs k => fs
/-- Convert the value stored under an optional key as a mapping (the
keywords field of a node record; data.get with an empty default). -/
def convertKeyOptAsMapping : JsonFields → String →
    Except String (OrgValue × List Json)
  | .nil, _ => .ok (.dict .nil, [])
  | .cons k v tl, key =>
      if k = key then
        match v with
        | .obj fs => fromJsonMapping fs
        | _ => .error "TypeError: not a mapping"
      else convertKeyOptAsMapping tl key
termination_by structural fs k => fs
end

/-! ## Well-formed node-free JSON trees, and the spec-side deserialization -/

/-- Whether a JSON value is a scalar (null, bool, number or string). -/
def Json.isScalar : Json → Bool
  | .null | .bool _ | .num _ | .str _ => true
  | _ => false

/-- Whether every field value of an object is a scalar (the shape of an
exported error record, whose only payload is its message string). -/
def scalarFields : JsonFields → Bool
  | .nil => true
  | .cons _ v tl => v.isScalar && scalarFields tl

mutual
/-- Well-formedness of a JSON tree for the amended partial-failure claim:
every object is tagged mapping (or untagged) or error, error records carry
a message and only scalar fields, and no object is tagged org-node (node
records currently fail to deserialize, see nodeFromJson). -/
def wfJson : Json → Bool
  | .null => true
  | .bool _ => true
  | .num _ => true
  | .str _ => true
  | .arr items => wfJsonList items
  | .obj fields =>
      match fields.lookup jsonTypeKey with
      | none => wfJsonFields fields
      | some (.str tag) =>
          if tag = "mapping" then wfJsonFields fields
          else if tag = "error" then
            (fields.lookup "message").isSome && scalarFields fields
          else false
      | some _ => false
termination_by structural j => j
def wfJsonList : JsonList → Bool
  | .nil => true
  | .cons x tl => wfJson x && wfJsonList tl
termination_by structural l => l
def wfJsonFields : JsonFields → Bool
  | .nil => true
  | .cons k v tl => (k = jsonTypeKey || wfJson v) && wfJsonFields tl
termination_by structural fs => fs
end

mutual
/-- Modelled from the wording of the spec: the expected deserialization of
a node-free tree, with an explicit null placeholder exactly at the tree
position of every error record and every other value converted in place
(objects dropping their data-type tag). -/
def specValue : Json → OrgValue
  | .null => .null
  | .bool b => .bool b
  | .num n => .num n
  | .str s => .str s
  | .arr items => .list (specValueList items)
  | .obj fields =>
      match fields.lookup jsonTypeKey with
      | some (.str "error") => .null
      | _ => .dict (specValueFields fields)
termination_by structural j => j
def specValueList : JsonList → OrgValueList
  | .nil => .nil
  | .cons x tl => .cons (specValue x) (specValueList tl)
termination_by structural l => l
def specValueFields : JsonFields → OrgValueFields
  | .nil => .nil
  | .cons k v tl =>
      if k = jsonTypeKey then specValueFields tl
      else .cons k (specValue v) (specValueFields tl)
termination_by structural fs => fs
end

mutual
/-- The message payloads of the error records of a node-free tree, in
document order: the diagnostics the deserializer prints. -/
def specMsgs : Json → List Json
  | .null => []
  | .bool _ => []
  | .num _ => []
  | .str _ => []
  | .arr items => specMsgsList items
  | .obj fields =>
      match fields.lookup jsonTypeKey with
      | some (.str "error") =>
          match fields.lookup "message" with
          | some m => [m]
          | none => []
      | _ => specMsgsFields fields
termination_by structural j => j
def specMsgsList : JsonList → List Json
  | .nil => []
  | .cons x tl => specMsgs x ++ specMsgsList tl
termination_by structural l => l
def specMsgsFields : JsonFields → List Json
  | .nil => []
  | .cons k v tl =>
      if k = jsonTypeKey then specMsgsFields tl
      else specMsgs v ++ specMsgsFields tl
termination_by structural fs => fs
end

mutual
/-- The number of error-tagged objects in a JSON tree (not descending into
the fields of an error record itself, which hold only scalars in
well-formed trees). -/
def errCount : Json → Nat
  | .null => 0
  | .bool _ => 0
  | .num _ => 0
  | .str _ => 0
  | .arr items => errCountList items
  | .obj fields =>
      match fields.lookup jsonTypeKey with
      | some (.str "error") => 1
      | _ => errCountFields fields
termination_by structural j => j
def errCountList : JsonList → Nat
  | .nil => 0
  | .cons x tl => errCount x + errCountList tl
termination_by structural l => l
def errCountFields : JsonFields → Nat
  | .nil => 0
  | .cons k v tl =>
      if k = jsonTypeKey then errCountFields tl
      else errCount v + errCountFields tl
termination_by structural fs => fs
end

/-! ## HTML element tree (pyorg/convert/html/element.py) -/

/-- An HTML attribute value: a string, or a boolean rendered as a bare
attribute name when true and omitted when false. -/
inductive AttrVal where
  | str (s : String)
  | bool (b : Bool)

mutual
/-- element.HtmlElement: tag name, attribute dict, children, inline
rendering flag, trailing-whitespace flag. -/
inductive HtmlElement where
  | mk (tag : String) (attrs : List (String × AttrVal))
      (children : List HtmlChild) (inline : Bool) (postWs : Bool)
/-- A child of an HtmlElement: a plain string, a TextNode (text plus
trailing-whitespace flag), or a nested element. -/
inductive HtmlChild where
  | str (s : String)
  | text (t : String) (postWs : Bool)
  | elem (e : HtmlElement)
end

def HtmlElement.tag : HtmlElement → String
  | .mk t _ _ _ _ => t

def HtmlElement.attrs : HtmlElement → List (String × AttrVal)
  | .mk _ a _ _ _ => a

def HtmlElement.children : HtmlElement → List HtmlChild
  | .mk _ _ c _ _ => c

def HtmlElement.inline : HtmlElement → Bool
  | .mk _ _ _ i _ => i

def HtmlElement.postWs : HtmlElement → Bool
  | .mk _ _ _ _ p => p

/-- html.escape of one character (quote=True: ampersand, angle brackets,
double quote and apostrophe become entities). -/
def escapeChar (c : Char) : List Char :=
  if c = Char.ofNat 38 then "&amp;".toList
  else if c = Char.ofNat 60 then "&lt;".toList
  else if c = Char.ofNat 62 then "&gt;".toList
  else if c = Char.ofNat 34 then "&quot;".toList
  else if c = Char.ofNat 39 then "&#x27;".toList
  else [c]

/-- html.escape over a string. -/
def htmlEscape (s : String) : String :=
  String.mk ((s.toList.map escapeChar).flatten)

/-- A double quote as a string, for attribute serialization. -/
def dq : String := String.mk [Char.ofNat 34]

/-- Serialization of one attribute: string values render as an escaped
key="value" pair, boolean values as the bare key when true and nothing
when false. -/
def attrString : String × AttrVal → String
  | (k, .str v) => " " ++ htmlEscape k ++ "=" ++ dq ++ htmlEscape v ++ dq
  | (k, .bool true) => " " ++ htmlEscape k
  | (_, .bool false) => ""

def attrsString (attrs : List (String × AttrVal)) : String :=
  String.join (attrs.map attrString)

/-- indent repeated depth times. -/
def indentRepeat (indent : String) (depth : Nat) : String :=
  String.join (List.replicate depth indent)

/-- The post_ws flag the child loop of the serializer reads: False for
plain strings, the stored flag for TextNodes and elements. -/
def childPostWs : HtmlChild → Bool
  | .str _ => false
  | .text _ pws => pws
  | .elem e => e.postWs

mutual
/-- element._write_html_recursive, returning the written string instead of
writing to a stream.  A block context puts each child on its own indented
line; an inline context concatenates children, inserting one space after a
child whose postWs flag is set. -/
def writeHtml (e : HtmlElement) (indent : String) (depth : Nat)
    (inline : Bool) : String :=
  match e with
  | .mk tag attrs children inl _ =>
      let inline2 := inline || inl
      let closeIndent :=
        if !children.isEmpty && !inline2 then
          String.append (String.mk [Char.ofNat 10]) (indentRepeat indent depth)
        else ""
      "<" ++ tag ++ attrsString attrs ++ ">"
        ++ writeChildren children indent depth inline2
        ++ closeIndent ++ "</" ++ tag ++ ">"
termination_by structural e
/-- The loop over elem.children inside _write_html_recursive. -/
def writeChildren : List HtmlChild → String → Nat → Bool → String
  | [], _, _, _ => ""
  | c :: cs, indent, depth, inline =>
      let pre :=
        if !inline then
          String.append (String.mk [Char.ofNat 10]) (indentRepeat indent (depth + 1))
        else ""
      let rendered := writeChild c indent depth inline
      let ws := if inline && childPostWs c then " " else ""
      pre ++ rendered ++ ws ++ writeChildren cs indent depth inline
termination_by structural l i d b => l
/-- One child: plain strings and TextNodes escape their text, elements
recurse one level deeper. -/
def writeChild : HtmlChild → String → Nat → Bool → String
  | .str s, _, _, _ => htmlEscape s
  | .text t _, _, _, _ => htmlEscape t
  | .elem e, indent, depth, inline => writeHtml e indent (depth + 1) inline
termination_by structural c i d b => c
end

/-- element.html_to_string with the default tab indent and block context. -/
def htmlToString (e : HtmlElement) : String :=
  writeHtml e (String.mk [Char.ofNat 9]) 0 false

/-! ## The HTML converter (pyorg/convert/html/converter.py) -/

/-- ast.ORG_NODE_TYPES reduced to the data the converter reads: the node
type name and its is_element flag (is_object is the complement). -/
def orgNodeTypes : List (String × Bool) := [
  ("org-data", true), ("babel-call", true), ("center-block", true),
  ("clock", true), ("comment", true), ("comment-block", true),
  ("diary-sexp", true), ("drawer", true), ("dynamic-block", true),
  ("example-block", true), ("export-block", true), ("fixed-width", true),
  ("footnote-definition", true), ("headline", true),
  ("horizontal-rule", true), ("inlinetask", true), ("item", true),
  ("keyword", true), ("latex-environment", true), ("node-property", true),
  ("paragraph", true), ("plain-list", true), ("planning", true),
  ("property-drawer", true), ("quote-block", true), ("section", true),
  ("special-block", true), ("src-block", true), ("table", true),
  ("table-row", true), ("verse-block", true),
  ("bold", false), ("code", false), ("entity", false),
  ("export-snippet", false), ("footnote-reference", false),
  ("inline-babel-call", false), ("inline-src-block", false),
  ("italic", false), ("latex-fragment", false), ("line-break", false),
  ("link", false), ("macro", false), ("radio-target", false),
  ("statistics-cookie", false), ("strike-through", false),
  ("subscript", false), ("superscript", false), ("table-cell", false),
  ("target", false), ("timestamp", false), ("underline", false),
  ("verbatim", false)]

/-- OrgHtmlConverter.TAGS: the default HTML tag per node type, none
meaning the node is skipped. -/
def tagsTable : List (String × Option String) := [
  ("org-data", some "article"), ("item", some "li"),
  ("paragraph", some "p"), ("bold", some "strong"), ("code", some "code"),
  ("italic", some "em"), ("link", some "a"), ("strike-through", some "s"),
  ("verbatim", some "span"), ("superscript", some "sup"),
  ("subscript", some "sub"), ("underline", some "u"),
  ("section", some "section"), ("headline", some "article"),
  ("comment", none), ("example-block", some "pre"),
  ("quote-block", some "blockquote"), ("verse-block", some "p"),
  ("center-block", some "div"), ("timestamp", some "span"),
  ("statistics-cookie", some "span"), ("fixed-width", some "pre"),
  ("babel-call", none), ("horizontal-rule", some "hr"),
  ("radio-target", some "span"), ("property-drawer", none),
  ("keyword", none)]

/-- OrgHtmlConverter.INLINE_NODES: paragraph, example-block and
fixed-width, plus every object node type. -/
def inlineNode (name : String) : Bool :=
  name = "paragraph" || name = "example-block" || name = "fixed-width"
    || (match dictGet orgNodeTypes name with
        | some isElem => !isElem
        | none => false)

/-- OrgHtmlConverter.default_tag: the TAGS entry if present, else span for
object types and div for element types; an unknown type name raises at the
as_node_type lookup. -/
def defaultTag (name : String) : Except String (Option String) :=
  match dictGet orgNodeTypes name with
  | none => .error "KeyError: unknown node type"
  | some isElem =>
      match dictGet tagsTable name with
      | some t => .ok t
      | none => .ok (some (if isElem then "div" else "span"))

/-- str.split() of a class attribute string on spaces, dropping empty
pieces (our class strings are single-space joined). -/
def wsSplit (s : String) : List String :=
  (s.split (fun c => c = ' ')).filter (fun x => !x.isEmpty)

/-- HtmlElement.classes getter: the class attribute split on whitespace. -/
def getClasses (e : HtmlElement) : List String :=
  match dictGet e.attrs "class" with
  | some (.str s) => wsSplit s
  | _ => []

def setAttr : HtmlElement → String → AttrVal → HtmlElement
  | .mk t a c i p, k, v => .mk t (dictSet a k v) c i p

/-- HtmlElement.classes setter: join the names and store them in the class
attribute. -/
def setClasses (e : HtmlElement) (cl : List String) : HtmlElement :=
  setAttr e "class" (.str (String.intercalate " " cl))

/-- The loop of HtmlElement.add_class: append each new name not already
present. -/
def addClassLoop (current : List String) : List String → List String
  | [] => current
  | c :: cs =>
      if c ∈ current then addClassLoop current cs
      else addClassLoop (current ++ [c]) cs

/-- HtmlElement.add_class. -/
def addClasses (e : HtmlElement) (classes : List String) : HtmlElement :=
  setClasses e (addClassLoop (getClasses e) classes)

def appendChild : HtmlElement → HtmlChild → HtmlElement
  | .mk t a c i p, ch => .mk t a (c ++ [ch]) i p

def appendChildren : HtmlElement → List HtmlChild → HtmlElement
  | .mk t a c i p, chs => .mk t a (c ++ chs) i p

/-- OrgHtmlConverter._make_elem_base: build an element, append the text
child if given, then overwrite the classes if given. -/
def makeElemBase (tag : String) (text : Option HtmlChild)
    (classes : Option (List String)) (attrs : List (String × AttrVal))
    (inline postWs : Bool) : HtmlElement :=
  let children := match text with
    | some t => [t]
    | none => []
  let e := HtmlElement.mk tag attrs children inline postWs
  match classes with
  | some cl => setClasses e cl
  | none => e

/-- Python truthiness of a property value. -/
def propTruthy : PropVal → Bool
  | .none => false
  | .bool b => b
  | .int i => decide (i ≠ 0)
  | .str s => !s.isEmpty

/-- Rendering of an integer as %d or str produce it. -/
def intRepr (i : Int) : String :=
  if i < 0 then "-" ++ natRepr i.natAbs else natRepr i.toNat

/-- Rendering of a property value under the %s format. -/
def propValStr : PropVal → String
  | .none => "None"
  | .bool true => "True"
  | .bool false => "False"
  | .int i => intRepr i
  | .str s => s

/-- node.properties.get of post-blank with default 0, compared with 0 (the
exporter stores an int there). -/
def postBlankGtZero (n : ONode) : Bool :=
  match n.propGet "post-blank" (.int 0) with
  | .int i => decide (0 < i)
  | _ => false

/-- An apostrophe, for messages built with the %r format. -/
def sq : String := String.mk [Char.ofNat 39]

/-- The no-default-tag warning message of _make_elem. -/
def noConvertMsg (name : String) : String :=
  "Don" ++ sq ++ "t know how to convert node of type " ++ sq ++ name ++ sq

/-- OrgHtmlConverter._make_error_msg with the default div tag. -/
def makeErrorMsg (msg : String) : HtmlElement :=
  makeElemBase "div" (some (.str msg)) (some ["org-error-msg"]) [] false false

/-- The default implementation of OrgHtmlConverter._make_elem: resolve the
tag (none means skip the node and its subtree), default the inline and
post_ws keywords for inline node types from the post-blank property, build
the element, add the default classes, and degrade visibly when the type
has no explicit TAGS entry. -/
def makeElem (n : ONode) (tagKw : Option String) (text : Option HtmlChild)
    (classes : Option (List String)) (attrs : List (String × AttrVal))
    (inlineKw postWsKw : Option Bool) : Except String (Option HtmlElement) :=
  let tagRes : Except String (Option String × Bool) :=
    match tagKw with
    | some t => .ok (some t, false)
    | none =>
        match defaultTag n.typeName with
        | .error e => .error e
        | .ok dt => .ok (dt, (dictGet tagsTable n.typeName).isNone)
  match tagRes with
  | .error e => .error e
  | .ok (none, _) => .ok none
  | .ok (some tag, noDefault) =>
      let inl := if inlineNode n.typeName then inlineKw.getD true
        else inlineKw.getD false
      let pws := if inlineNode n.typeName then
          postWsKw.getD (postBlankGtZero n)
        else postWsKw.getD false
      let e := makeElemBase tag text classes attrs inl pws
      let e := addClasses e ["org-node", "org-" ++ n.typeName]
      if noDefault then
        .ok (some (appendChild (addClasses e ["org-error"])
          (.elem (makeErrorMsg (noConvertMsg n.typeName)))))
      else .ok (some e)

/-- Python equality between the result of ast.get_node_type with default
arguments (an OrgNodeType named tuple for nodes, None for strings) and a
string: a named tuple never compares equal to a str and neither does None,
so the comparison is False for every item.  The splice condition of
_convert_uo_list_item reads get_node_type(contents[0]) == the string
paragraph and therefore never fires (its intent, per the adjacent source
comment, required the type name, i.e. get_node_type with name=True). -/
def getNodeTypeEqStr (_ : OItem) (_ : String) : Bool := false

/-- ast.OrgTableNode.blocks: the loop over the table contents, carrying the
block under construction and the completed blocks; rule rows start a new
block, standard rows append their cell list to the current block, any other
row type raises ValueError and a non table-row child fails the assert. -/
def tableBlocksGo : List OItem → List (List OItem) →
    List (List (List OItem)) → Except String (List (List (List OItem)))
  | [], current, done => .ok (done ++ [current])
  | .text _ :: _, _, _ => .error "AttributeError"
  | .node row :: rest, current, done =>
      if row.typeName ≠ "table-row" then .error "AssertionError"
      else
        match dictGet row.properties "type" with
        | Option.none => .error "KeyError: type"
        | some v =>
            if v = .str "rule" then tableBlocksGo rest [] (done ++ [current])
            else if v = .str "standard" then
              tableBlocksGo rest (current ++ [row.contents]) done
            else .error "ValueError"

/-- ast.OrgTableNode.blocks: current_block starts empty and blocks starts
as the one-element list holding it. -/
def tableBlocks (n : ONode) : Except String (List (List (List OItem))) :=
  tableBlocksGo n.contents [] []

/-- The block element wrapping the rows of one table block: thead for the
first block when there is more than one, else tbody. -/
def tableBlockElem (isHead : Bool) (rows : List HtmlChild) : HtmlChild :=
  .elem (appendChildren
    (makeElemBase (if isHead then "thead" else "tbody") none none [] false false)
    rows)

mutual
/-- OrgHtmlConverter._convert: strings become TextNodes, nodes dispatch on
their type name. -/
def convertItem : OItem → Except String (Option HtmlChild)
  | .text s => .ok (some (.text s false))
  | .node n => convertNode n
termination_by structural c => c

/-- The loop of OrgHtmlConverter._add_children: convert each item, keeping
the non-None results in order. -/
def convertItems : List OItem → Except String (List HtmlChild)
  | [] => .ok []
  | c :: cs =>
      match convertItem c with
      | .error e => .error e
      | .ok Option.none => convertItems cs
      | .ok (some h) =>
          match convertItems cs with
          | .error e => .error e
          | .ok hs => .ok (h :: hs)
termination_by structural l => l

/-- OrgHtmlConverter._convert_node: the DispatchNodeType registry keyed on
the node type name.  Entries whose implementations depend on converter
configuration (link resolution, latex delimiters, date format) and the
headline machinery are not embedded; the statements proved below stay away
from those node types. -/
def convertNode : ONode → Except String (Option HtmlChild)
  | .mk tn props cs =>
      if tn = "plain-list" then
        match dictGet props "type" with
        | Option.none => .error "KeyError: type"
        | some listtype =>
            if listtype = .str "descriptive" then
              .error "not modelled: descriptive list"
            else if listtype = .str "ordered" then
              -- _convert_uo_list with the ol tag
              match makeElem (ONode.mk tn props cs) (some "ol") Option.none
                  Option.none [] Option.none Option.none with
              | .error e => .error e
              | .ok Option.none => .error "unreachable: tag was given"
              | .ok (some html) =>
                  match convertUoItems cs with
                  | .error e => .error e
                  | .ok lis => .ok (some (.elem (appendChildren html lis)))
            else if listtype = .str "unordered" then
              -- _convert_uo_list with the ul tag
              match makeElem (ONode.mk tn props cs) (some "ul") Option.none
                  Option.none [] Option.none Option.none with
              | .error e => .error e
              | .ok Option.none => .error "unreachable: tag was given"
              | .ok (some html) =>
                  match convertUoItems cs with
                  | .error e => .error e
                  | .ok lis => .ok (some (.elem (appendChildren html lis)))
            else .error "AssertionError"
      else if tn = "entity" then
        match dictGet props "utf-8" with
        | some (.str s) =>
            .ok (some (.text s (postBlankGtZero (ONode.mk tn props cs))))
        | some _ => .error "TypeError"
        | Option.none => .error "KeyError: utf-8"
      else if tn = "code" then
        match dictGet props "value" with
        | some (.str s) =>
            match makeElem (ONode.mk tn props cs) Option.none
                (some (.str s)) Option.none [] Option.none Option.none with
            | .error e => .error e
            | .ok Option.none => .error "unreachable: code has a tag"
            | .ok (some e) => .ok (some (.elem e))
        | some _ => .error "TypeError"
        | Option.none => .error "KeyError: value"
      else if tn = "verbatim" || tn = "example-block"
          || tn = "statistics-cookie" || tn = "fixed-width" then
        match dictGet props "value" with
        | some (.str s) =>
            match makeElem (ONode.mk tn props cs) Option.none
                (some (.str s)) Option.none [] Option.none Option.none with
            | .error e => .error e
            | .ok Option.none => .error "unreachable: value node has a tag"
            | .ok (some e) => .ok (some (.elem e))
        | some _ => .error "AssertionError"
        | Option.none => .error "KeyError: value"
      else if tn = "line-break" then
        .ok (some (.elem (makeElemBase "br" Option.none Option.none []
          false false)))
      else if tn = "src-block" then
        match dictGet props "value" with
        | some (.str s) =>
            match makeElem (ONode.mk tn props cs) (some "div") Option.none
                Option.none [] Option.none Option.none with
            | .error e => .error e
            | .ok Option.none => .error "unreachable: tag was given"
            | .ok (some html) =>
                let codeElem := addClasses
                  (makeElemBase "pre" (some (.str s)) Option.none [] true false)
                  ["org-src-block-value"]
                match convertItems cs with
                | .error e => .error e
                | .ok results => .ok (some (.elem (appendChildren
                    (appendChild html (.elem codeElem)) results)))
        | some _ => .error "TypeError"
        | Option.none => .error "KeyError: value"
      else if tn = "table" then
        match makeElem (ONode.mk tn props cs) (some "table") Option.none
            Option.none [] Option.none Option.none with
        | .error e => .error e
        | .ok Option.none => .error "unreachable: tag was given"
        | .ok (some tableElem) =>
            match tableBlocks (ONode.mk tn props cs) with
            | .error e => .error e
            | .ok blocks =>
                match convertTableGo cs true (decide (1 < blocks.length)) [] with
                | .error e => .error e
                | .ok blockElems =>
                    .ok (some (.elem (appendChildren tableElem blockElems)))
      else if tn = "link" || tn = "latex-fragment" || tn = "timestamp" then
        .error "not modelled: configuration dependent converter entry"
      else if tn = "org-data" || tn = "headline" then
        .error "not modelled: headline machinery"
      else
        match makeElem (ONode.mk tn props cs) Option.none Option.none
            Option.none [] Option.none Option.none with
        | .error e => .error e
        | .ok Option.none => .ok Option.none
        | .ok (some e) =>
            match convertItems cs with
            | .error e2 => .error e2
            | .ok results => .ok (some (.elem (appendChildren e results)))
termination_by structural n => n

/-- The item loop of _convert_uo_list, with
OrgHtmlConverter._convert_uo_list_item inlined: the li element, the
checkbox class and input when the checkbox property is truthy, then the
children.  The source then computes contents[0].contents + contents[1:]
when get_node_type(contents[0]) equals the string paragraph; that
comparison is always False (see getNodeTypeEqStr), so the contents are
converted unchanged and a leading paragraph is never spliced. -/
def convertUoItems : List OItem → Except String (List HtmlChild)
  | [] => .ok []
  | .text _ :: _ => .error "AttributeError"
  | .node (.mk tn2 props2 cs2) :: rest =>
      if tn2 = "item" then
        match makeElem (ONode.mk tn2 props2 cs2) Option.none Option.none
            Option.none [] Option.none Option.none with
        | .error e => .error e
        | .ok Option.none => .error "unreachable: item has a tag"
        | .ok (some e0) =>
            match dictGet props2 "checkbox" with
            | Option.none => .error "KeyError: checkbox"
            | some v =>
                let e1 :=
                  if propTruthy v then
                    appendChild
                      (addClasses e0 (wsSplit
                        ("org-has-checkbox org-checkbox-" ++ propValStr v)))
                      (.elem (makeElemBase "input" Option.none
                        (some ["org-checkbox"])
                        [("type", .str "checkbox"), ("disabled", .bool true),
                          ("checked", .bool (v = .str "on"))] false false))
                  else e0
                match convertItems cs2 with
                | .error e => .error e
                | .ok chs =>
                    match convertUoItems rest with
                    | .error e => .error e
                    | .ok lis => .ok (.elem (appendChildren e1 chs) :: lis)
      else .error "AssertionError"
termination_by structural l => l

/-- The block loop of _convert_table re-expressed as one structural pass
over the (already validated) table contents: first tracks whether the
block under construction is the first one, manyBlocks whether blocks()
found more than one block (so that the first renders as thead with th
cells), rows accumulates the converted rows of the current block. -/
def convertTableGo (items : List OItem) (first : Bool) (manyBlocks : Bool)
    (rows : List HtmlChild) : Except String (List HtmlChild) :=
  match items with
  | [] => .ok [tableBlockElem (first && manyBlocks) rows]
  | .text _ :: _ => .error "AttributeError"
  | .node (.mk _ rowProps rowCells) :: rest =>
      match dictGet rowProps "type" with
      | Option.none => .error "KeyError: type"
      | some v =>
          if v = .str "rule" then
            match convertTableGo rest false manyBlocks [] with
            | .error e => .error e
            | .ok blocks =>
                .ok (tableBlockElem (first && manyBlocks) rows :: blocks)
          else
            -- _convert_table_row: a tr element holding the converted cells
            match convertTableCells rowCells (first && manyBlocks) with
            | .error e => .error e
            | .ok cellElems =>
                convertTableGo rest first manyBlocks (rows
                  ++ [.elem (appendChildren (makeElemBase "tr" Option.none
                    Option.none [] false false) cellElems)])
termination_by structural items

/-- The cell loop of _convert_table_row: every cell must be a table-cell
node; its element is th in a header row and td otherwise, and its contents
are converted recursively. -/
def convertTableCells : List OItem → Bool → Except String (List HtmlChild)
  | [], _ => .ok []
  | .text _ :: _, _ => .error "AttributeError"
  | .node (.mk ctn _ ccs) :: rest, header =>
      if ctn = "table-cell" then
        match convertItems ccs with
        | .error e => .error e
        | .ok inner =>
            match convertTableCells rest header with
            | .error e => .error e
            | .ok cellElems =>
                .ok (.elem (appendChildren
                  (makeElemBase (if header then "th" else "td") Option.none
                    Option.none [] false false) inner) :: cellElems)
      else .error "AssertionError"
termination_by structural l h => l
end

/-! ## Shapes used by the theorem statements -/

/-- Whether a conversion succeeded. -/
def exceptOk {α : Type} : Except String α → Bool
  | .ok _ => true
  | .error _ => false

/-- A cell list fit for the single-block table statement: every entry is a
table-cell node whose contents convert without error. -/
def stdCellsOk (cs : List OItem) : Bool :=
  cs.all (fun c =>
    match c with
    | .node (.mk ctn _ ccs) => ctn = "table-cell" && exceptOk (convertItems ccs)
    | .text _ => false)

/-- A table contents list made only of standard rows with convertible
table-cell children. -/
def stdRowsOk (rows : List OItem) : Bool :=
  rows.all (fun item =>
    match item with
    | .node (.mk rtn rprops rcells) =>
        rtn = "table-row"
          && decide (dictGet rprops "type" = some (PropVal.str "standard"))
          && stdCellsOk rcells
    | .text _ => false)

/-- A converted table row as the claim describes one: a tr element all of
whose element children are td cells. -/
def rowTrTdOnly : HtmlChild → Bool
  | .elem e =>
      e.tag = "tr" && e.children.all (fun c =>
        match c with
        | .elem ce => ce.tag = "td"
        | _ => false)
  | _ => false

/-- The element the default _make_elem builds for a table node before its
blocks are appended. -/
def tableBaseElem : HtmlElement :=
  HtmlElement.mk "table" [("class", AttrVal.str "org-node org-table")] []
    false false

/-- The element the converter builds for a bold node holding one text
child, whose post-blank property is p. -/
def boldElem (p : Int) (s : String) : HtmlElement :=
  HtmlElement.mk "strong" [("class", AttrVal.str "org-node org-bold")]
    [.text s false] true (decide (0 < p))

/-- The serialized form of an element rendered as an inline child at depth
1 under the default tab indent. -/
def renderInlineChild (e : HtmlElement) : String :=
  writeHtml e (String.mk [Char.ofNat 9]) 1 true

/-- A standard table row with the given cell list. -/
def stdRow (cells : List OItem) : OItem :=
  .node (.mk "table-row" [("type", PropVal.str "standard")] cells)

/-- A rule (separator) table row. -/
def ruleRow : OItem :=
  .node (.mk "table-row" [("type", PropVal.str "rule")] [])

/-! ## Shared lemmas -/

theorem dictGet_dictSet_self {V : Type} (d : List (String × V)) (k : String)
    (v : V) : dictGet (dictSet d k v) k = some v := by
  induction d with
  | nil => simp [dictSet, dictGet]
  | cons hd tl ih =>
      obtain ⟨k2, v2⟩ := hd
      by_cases hk : k2 = k
      · simp [dictSet, hk, dictGet]
      · simp [dictSet, hk, dictGet, ih]

theorem chainGet_set_self {V : Type} (cm : PyChainMap V) (k : String)
    (v : V) : (cm.set k v).get k = some v := by
  simp [PyChainMap.set, PyChainMap.get, dictGet_dictSet_self]

/-! ## C6: dispatch falls back to the default and last registration wins -/

/-- C6: for every node-type dispatch registry and every node, a key with no
registered implementation makes dispatch return the default, and
registering twice under the same key leaves only the second
implementation. -/
theorem dispatch_default_and_last_registration_wins {V : Type} (d : V)
    (reg : PyChainMap V) (n : ONode) :
    ((DispatchNodeType.mk d reg).registry.get n.typeName = none →
      DispatchNodeType.dispatchNode (DispatchNodeType.mk d reg) n = d)
    ∧ ∀ (f g : V),
      (DispatchNodeType.dispatchNode
        (((DispatchNodeType.mk d reg).register n.typeName f).register
          n.typeName g) n = g) := by
  constructor
  · intro h
    simp [DispatchNodeType.dispatchNode, SingleDispatchBase.dispatch,
      DispatchNodeType.mk, dispatchLoop] at h ⊢
    simp [h]
  · intro f g
    simp [DispatchNodeType.dispatchNode, SingleDispatchBase.dispatch,
      DispatchNodeType.mk, SingleDispatchBase.register, dispatchLoop,
      chainGet_set_self]

/-- Witness for C6 at a concrete registry and node. -/
theorem dispatch_default_and_last_registration_wins_witness :
    (DispatchNodeType.dispatchNode
      (DispatchNodeType.mk (0 : Nat) (PyChainMap.mk [] []))
      (ONode.mk "bold" [] []) = 0)
    ∧ (DispatchNodeType.dispatchNode
      (((DispatchNodeType.mk (0 : Nat) (PyChainMap.mk [] [])).register
        "bold" 1).register "bold" 2) (ONode.mk "bold" [] []) = 2) := by
  constructor
  · exact (dispatch_default_and_last_registration_wins 0
      (PyChainMap.mk [] []) (ONode.mk "bold" [] [])).1 rfl
  · exact (dispatch_default_and_last_registration_wins 0
      (PyChainMap.mk [] []) (ONode.mk "bold" [] [])).2 1 2

/-! ## C2: dispatch_node_type layers the parent table wrong way round -/

/-- C2 (code bug evidence): dispatch_node_type builds
ChainMap(parent, fresh dict), so the parent table is the first layer: a
lookup consults the parent before the fresh child layer, and registering on
the child registry writes into the parent table (the slot holding it),
leaving th fresh child layer forever empty.  Evaluated on a parent table
mapping headline to implementation 1 and a registration of implementation 2
on the child. -/
theorem dispatch_node_type_parent_layer_mutated :
    ((dispatchNodeTypeWithParent [("headline", (1 : Nat))] 0).registry.first
        = [("headline", 1)]
      ∧ (dispatchNodeTypeWithParent [("headline", (1 : Nat))] 0).registry.rest
        = [[]]
      ∧ DispatchNodeType.dispatchNode
          (dispatchNodeTypeWithParent [("headline", (1 : Nat))] 0)
          (ONode.mk "headline" [] []) = 1)
    ∧ (((dispatchNodeTypeWithParent [("headline", (1 : Nat))] 0).register
          "headline" 2).registry.first = [("headline", 2)]
      ∧ ((dispatchNodeTypeWithParent [("headline", (1 : Nat))] 0).register
          "headline" 2).registry.rest = [[]]
      ∧ DispatchNodeType.dispatchNode
          ((dispatchNodeTypeWithParent [("headline", (1 : Nat))] 0).register
            "headline" 2) (ONode.mk "headline" [] []) = 2) := by
  exact ⟨⟨rfl, rfl, rfl⟩, ⟨rfl, rfl, rfl⟩⟩

/-! ## C5: the ISO-8601 parsing examples -/

/-- C5: the five documented behaviors of parse_iso_date: a bare year gives
January first of that year, fractional seconds parse to microseconds, Z
gives the UTC offset, a +02:30 suffix gives a 150 minute offset, and a
non-date string raises ValueError. -/
theorem parse_iso_date_examples :
    parseIsoDate "2000" = .ok (.date 2000 1 1)
    ∧ parseIsoDate "2019-07-11T10:23:42.123456"
        = .ok (.datetime 2019 7 11 10 23 42 123456 Option.none)
    ∧ parseIsoDate "2019-07-11T10:23Z"
        = .ok (.datetime 2019 7 11 10 23 0 0 (some 0))
    ∧ parseIsoDate "2019-07-11T10:23+02:30"
        = .ok (.datetime 2019 7 11 10 23 0 0 (some 150))
    ∧ parseIsoDate "foo" = .error "Invalid ISO8601 time: foo" := by
  exact ⟨rfl, rfl, rfl, rfl, rfl⟩

/-! ## C10: OrgNode item access -/

/-- C10: indexing a node with an in-range integer returns that entry of its
contents, indexing with a present string key returns that property value,
a missing string key raises KeyError, any other key type raises TypeError,
the node length is the length of its contents and iterating the node
yields exactly its contents. -/
theorem getitem_len_iter_contract (n : ONode) :
    (∀ (i : Nat) (h : i < n.contents.length),
      n.getitem (.int i) = .ok (.content (n.contents.get ⟨i, h⟩)))
    ∧ (∀ (k : String) (v : PropVal), dictGet n.properties k = some v →
      n.getitem (.str k) = .ok (.prop v))
    ∧ (∀ (k : String), dictGet n.properties k = none →
      n.getitem (.str k) = .error "KeyError")
    ∧ n.getitem .other = .error "TypeError: Expected str or int"
    ∧ n.len = n.contents.length
    ∧ n.iter = n.contents := by
  refine ⟨?_, ?_, ?_, rfl, rfl, rfl⟩
  · intro i h
    have h0 : ¬ ((i : Int) < 0) := by omega
    have h1 : (0 : Int) ≤ (i : Int) ∧ (i : Int) < (n.contents.length : Int) := by
      omega
    simp only [ONode.getitem, pyListGet, h0, if_false, h1, dif_pos]
    simp [Except.map]
  · intro k v h
    simp [ONode.getitem, h]
  · intro k h
    simp [ONode.getitem, h]

/-- Witness for C10 at a concrete node. -/
theorem getitem_len_iter_contract_witness :
    ((ONode.mk "bold" [("a", .int 5)] [.text "t"]).getitem (.int 0)
      = .ok (.content (.text "t")))
    ∧ ((ONode.mk "bold" [("a", .int 5)] [.text "t"]).getitem (.str "a")
      = .ok (.prop (.int 5)))
    ∧ ((ONode.mk "bold" [("a", .int 5)] [.text "t"]).getitem (.str "zz")
      = .error "KeyError") := by
  refine ⟨?_, ?_, ?_⟩
  · exact (getitem_len_iter_contract (ONode.mk "bold" [("a", .int 5)]
      [.text "t"])).1 0 (by decide)
  · exact (getitem_len_iter_contract (ONode.mk "bold" [("a", .int 5)]
      [.text "t"])).2.1 "a" (.int 5) rfl
  · exact (getitem_len_iter_contract (ONode.mk "bold" [("a", .int 5)]
      [.text "t"])).2.2.1 "zz" rfl

/-! ## C8: the list-item paragraph splice never fires (code bug) -/

/-- C8 (code bug evidence): an unordered list whose single item has as its
only content child a paragraph holding the text s converts to an li that
still contains the whole p element, because the splice condition compares
an OrgNodeType named tuple with a string and is therefore always False. -/
theorem uo_list_item_paragraph_not_spliced (s : String) :
    convertNode (.mk "plain-list" [("type", .str "unordered")]
      [.node (.mk "item" [("checkbox", PropVal.none)]
        [.node (.mk "paragraph" [("post-blank", .int 0)] [.text s])])])
      = .ok (some (.elem (HtmlElement.mk "ul"
          [("class", AttrVal.str "org-node org-plain-list")]
          [.elem (HtmlElement.mk "li"
            [("class", AttrVal.str "org-node org-item")]
            [.elem (HtmlElement.mk "p"
              [("class", AttrVal.str "org-node org-paragraph")]
              [.text s false] true false)] false false)] false false)))
    ∧ getNodeTypeEqStr
        (.node (.mk "paragraph" [("post-blank", .int 0)] [.text s]))
        "paragraph" = false := by
  exact ⟨rfl, rfl⟩

/-! ## C9: inline whitespace from the post-blank property -/

/-- C9: two adjacent inline nodes (bold runs) inside a paragraph render
with exactly one space between their forms precisely when the post-blank
property of the first is positive; an absent post-blank behaves like 0 and
inserts nothing. -/
theorem inline_post_blank_space (p q : Int) (sa sb : String) :
    convertNode (.mk "paragraph" [("post-blank", .int 0)]
      [.node (.mk "bold" [("post-blank", .int p)] [.text sa]),
       .node (.mk "bold" [("post-blank", .int q)] [.text sb])])
      = .ok (some (.elem (HtmlElement.mk "p"
          [("class", AttrVal.str "org-node org-paragraph")]
          [.elem (boldElem p sa), .elem (boldElem q sb)] true false)))
    ∧ htmlToString (HtmlElement.mk "p"
        [("class", AttrVal.str "org-node org-paragraph")]
        [.elem (boldElem p sa), .elem (boldElem q sb)] true false)
      = "<p class=" ++ dq ++ "org-node org-paragraph" ++ dq ++ ">"
        ++ renderInlineChild (boldElem p sa)
        ++ (if 0 < p then " " else "")
        ++ renderInlineChild (boldElem q sb)
        ++ (if 0 < q then " " else "")
        ++ "</p>"
    ∧ convertNode (.mk "bold" [] [.text sa])
        = .ok (some (.elem (boldElem 0 sa))) := by
  refine ⟨rfl, ?_, rfl⟩
  have hpa : attrsString [("class", AttrVal.str "org-node org-paragraph")]
      = " class=" ++ dq ++ "org-node org-paragraph" ++ dq := rfl
  have hba : attrsString [("class", AttrVal.str "org-node org-bold")]
      = " class=" ++ dq ++ "org-node org-bold" ++ dq := rfl
  by_cases hp : 0 < p <;> by_cases hq : 0 < q <;>
    simp [htmlToString, writeHtml, writeChildren, writeChild, boldElem,
      renderInlineChild, childPostWs, HtmlElement.postWs, hp, hq, dq,
      hpa, hba, String.append_assoc]

/-! ## C7: table block partition and single-block rendering -/

theorem tableBlocks_std_rows (rows : List OItem) (cur : List (List OItem))
    (done : List (List (List OItem))) (h : stdRowsOk rows = true) :
    ∃ rcs : List (List OItem),
      tableBlocksGo rows cur done = .ok (done ++ [cur ++ rcs]) := by
  induction rows generalizing cur with
  | nil => exact ⟨[], by simp [tableBlocksGo]⟩
  | cons c rest ih =>
      match c with
      | .text s => simp [stdRowsOk] at h
      | .node (.mk rtn rprops rcells) =>
          simp only [stdRowsOk, List.all_cons, Bool.and_eq_true,
            decide_eq_true_eq] at h
          obtain ⟨⟨⟨htn, hty⟩, hcellsok⟩, hrest⟩ := h
          obtain ⟨rcs, hrcs⟩ := ih (cur ++ [rcells]) hrest
          refine ⟨rcells :: rcs, ?_⟩
          simp only [tableBlocksGo, htn, hty]
          simp only [ONode.typeName, ONode.properties, ONode.contents, hty]
          simpa [List.append_assoc] using hrcs

theorem convertTableCells_std (cells : List OItem)
    (h : stdCellsOk cells = true) :
    ∃ cellElems, convertTableCells cells false = .ok cellElems
      ∧ cellElems.all (fun c =>
          match c with
          | .elem ce => ce.tag = "td"
          | _ => false) = true := by
  induction cells with
  | nil => exact ⟨[], rfl, rfl⟩
  | cons c rest ih =>
      match c with
      | .text s => simp [stdCellsOk] at h
      | .node (.mk ctn cprops ccs) =>
          simp only [stdCellsOk, List.all_cons, Bool.and_eq_true,
            decide_eq_true_eq] at h
          obtain ⟨⟨hctn, hok⟩, hrest⟩ := h
          obtain ⟨inner, hinner⟩ : ∃ inner, convertItems ccs = .ok inner := by
            cases hcc : convertItems ccs with
            | ok v => exact ⟨v, rfl⟩
            | error e => rw [hcc] at hok; simp [exceptOk] at hok
          obtain ⟨cellElems, hcells, halltd⟩ := ih hrest
          refine ⟨.elem (appendChildren (makeElemBase "td" Option.none
            Option.none [] false false) inner) :: cellElems, ?_, ?_⟩
          · simp only [convertTableCells, hctn, hinner, hcells]
            simp
          · simp only [List.all_cons, halltd, Bool.and_true]
            rfl

theorem convertTableGo_single_block (rows : List OItem)
    (acc : List HtmlChild) (h : stdRowsOk rows = true) :
    ∃ rowElems, convertTableGo rows true false acc
        = .ok [tableBlockElem false (acc ++ rowElems)]
      ∧ rowElems.all rowTrTdOnly = true
      ∧ rowElems.length = rows.length := by
  induction rows generalizing acc with
  | nil => exact ⟨[], by simp [convertTableGo], rfl, rfl⟩
  | cons c rest ih =>
      match c with
      | .text s => simp [stdRowsOk] at h
      | .node (.mk rtn rprops rcells) =>
          simp only [stdRowsOk, List.all_cons, Bool.and_eq_true,
            decide_eq_true_eq] at h
          obtain ⟨⟨⟨htn, hty⟩, hcellsok⟩, hrest⟩ := h
          obtain ⟨cellElems, hcells, halltd⟩ := convertTableCells_std rcells hcellsok
          obtain ⟨rowElems, hgo, hall, hlen⟩ := ih
            (acc ++ [.elem (appendChildren (makeElemBase "tr"
              Option.none Option.none [] false false) cellElems)]) hrest
          refine ⟨.elem (appendChildren (makeElemBase "tr" Option.none
            Option.none [] false false) cellElems) :: rowElems, ?_, ?_,
            by simp [hlen]⟩
          · simp only [convertTableGo, hty, Bool.and_false, hcells]
            simpa [List.append_assoc] using hgo

          · simp only [List.all_cons, hall, Bool.and_true, rowTrTdOnly,
              appendChildren, makeElemBase, HtmlElement.tag,
              HtmlElement.children]
            simpa using halltd

/-- C7: a table with rows A, B, rule, C, D partitions into exactly the two
blocks holding the cells of A, B and of C, D; with rows A, B and no rule
it partitions into one block; and in the single-block case the converter
renders every row inside one tbody with td cells, producing neither a
thead nor any th cell. -/
theorem table_partition_and_single_block_render :
    (∀ (tp : List (String × PropVal)) (ra rb rc rd : List OItem),
      tableBlocks (.mk "table" tp
          [stdRow ra, stdRow rb, ruleRow, stdRow rc, stdRow rd])
        = .ok [[ra, rb], [rc, rd]])
    ∧ (∀ (tp : List (String × PropVal)) (ra rb : List OItem),
      tableBlocks (.mk "table" tp [stdRow ra, stdRow rb]) = .ok [[ra, rb]])
    ∧ (∀ (tp : List (String × PropVal)) (rows : List OItem),
      stdRowsOk rows = true →
      ∃ rowElems,
        convertNode (.mk "table" tp rows)
          = .ok (some (.elem (appendChildren tableBaseElem
              [tableBlockElem false rowElems])))
        ∧ rowElems.all rowTrTdOnly = true
        ∧ rowElems.length = rows.length) := by
  refine ⟨fun tp ra rb rc rd => rfl, fun tp ra rb => rfl, ?_⟩
  intro tp rows h
  obtain ⟨rcs, hblocks⟩ := tableBlocks_std_rows rows [] [] h
  obtain ⟨rowElems, hgo, hall, hlen⟩ := convertTableGo_single_block rows [] h
  refine ⟨rowElems, ?_, hall, hlen⟩
  have step : convertNode (ONode.mk "table" tp rows)
      = (match tableBlocks (ONode.mk "table" tp rows) with
        | .error e => .error e
        | .ok blocks =>
            match convertTableGo rows true (decide (1 < blocks.length)) [] with
            | .error e => .error e
            | .ok blockElems =>
                .ok (some (.elem (appendChildren tableBaseElem
                  blockElems)))) := rfl
  rw [step]
  have hblocks2 : tableBlocks (ONode.mk "table" tp rows) = .ok [rcs] := by
    simpa [tableBlocks] using hblocks
  have hgo2 : convertTableGo rows true false []
      = .ok [tableBlockElem false rowElems] := by
    simpa using hgo
  rw [hblocks2]
  simp only [List.length_cons, List.length_nil]
  norm_num
  rw [hgo2]

/-- Witness for C7 at a concrete two-row single-block table. -/
theorem table_partition_witness :
    stdRowsOk [stdRow [.node (.mk "table-cell" [] [.text "a"])],
        stdRow [.node (.mk "table-cell" [] [.text "b"])]] = true
    ∧ ∃ rowElems,
        convertNode (.mk "table" []
            [stdRow [.node (.mk "table-cell" [] [.text "a"])],
             stdRow [.node (.mk "table-cell" [] [.text "b"])]])
          = .ok (some (.elem (appendChildren tableBaseElem
              [tableBlockElem false rowElems])))
        ∧ rowElems.all rowTrTdOnly = true
        ∧ rowElems.length = 2 := by
  constructor
  · rfl
  · exact table_partition_and_single_block_render.2.2 []
      [stdRow [.node (.mk "table-cell" [] [.text "a"])],
       stdRow [.node (.mk "table-cell" [] [.text "b"])]] rfl

/-! ## C4 counterexample: the title is not lowercased -/

/-- C4 (counterexample): on the title AB the slug the claim describes is
ab, but _make_header_id computes AB: the source never lowercases. -/
theorem slug_not_lowercased_counterexample :
    slugBase "AB" = "AB" ∧ claimedSlug "AB" = "ab"
      ∧ claimedSlug "AB" ≠ slugBase "AB" := by
  exact ⟨rfl, rfl, by decide⟩

/-! ## C3 counterexample: a first-come base slug can already be taken -/

/-- C3 (counterexample): with top-level titles foo, foo, foo 2 the third
headline is the first (and only) node whose base slug is foo-2, yet it
receives foo-2-2, because foo-2 was already assigned to the second foo. -/
theorem first_node_unsuffixed_counterexample :
    assignHeaderIds [.mk "foo" [], .mk "foo" [], .mk "foo 2" []] 3
      = ["foo", "foo-2", "foo-2-2"]
    ∧ slugBase "foo 2" = "foo-2"
    ∧ ("foo-2-2" : String) ≠ "foo-2" := by
  exact ⟨rfl, rfl, by decide⟩

/-! ## C3 amended: freshness and first-candidate characterization -/

theorem digitsRevVal_natDigitsRev (fuel : Nat) :
    ∀ n : Nat, n ≤ fuel → digitsRevVal (natDigitsRev fuel n) = n := by
  induction fuel with
  | zero =>
      intro n h
      have : n = 0 := by omega
      simp [this, natDigitsRev, digitsRevVal]
  | succ fuel ih =>
      intro n h
      by_cases h0 : n = 0
      · simp [h0, natDigitsRev, digitsRevVal]
      · have hdiv : n / 10 ≤ fuel := by
          have := Nat.div_lt_self (Nat.pos_of_ne_zero h0)
            (by norm_num : 1 < 10)
          omega
        simp [natDigitsRev, h0, digitsRevVal, ih _ hdiv]
        omega

theorem natDigitsRev_lt_ten (fuel : Nat) :
    ∀ (n d : Nat), d ∈ natDigitsRev fuel n → d < 10 := by
  induction fuel with
  | zero => intro n d h; simp [natDigitsRev] at h
  | succ fuel ih =>
      intro n d h
      by_cases h0 : n = 0
      · simp [natDigitsRev, h0] at h
      · simp [natDigitsRev, h0] at h
        rcases h with h | h
        · omega
        · exact ih _ _ h

theorem digitChar_inj_lt_ten (a b : Nat) (ha : a < 10) (hb : b < 10)
    (h : Nat.digitChar a = Nat.digitChar b) : a = b := by
  interval_cases a <;> interval_cases b <;> revert h <;> decide

theorem map_digitChar_inj : ∀ (l1 l2 : List Nat),
    (∀ d ∈ l1, d < 10) → (∀ d ∈ l2, d < 10) →
    l1.map Nat.digitChar = l2.map Nat.digitChar → l1 = l2 := by
  intro l1
  induction l1 with
  | nil => intro l2 _ _ h; cases l2 <;> simp_all
  | cons a tl ih =>
      intro l2 h1 h2 h
      cases l2 with
      | nil => simp at h
      | cons b tl2 =>
          simp only [List.map_cons, List.cons.injEq] at h
          have ha := h1 a (by simp)
          have hb := h2 b (by simp)
          have := digitChar_inj_lt_ten a b ha hb h.1
          subst this
          rw [ih tl2 (fun d hd => h1 d (by simp [hd]))
            (fun d hd => h2 d (by simp [hd])) h.2]

theorem natRepr_inj (m n : Nat) (hm : 1 ≤ m) (hn : 1 ≤ n)
    (h : natRepr m = natRepr n) : m = n := by
  simp only [natRepr] at h
  rw [if_neg (by omega), if_neg (by omega)] at h
  have hdata := congrArg String.data h
  simp only [String.data] at hdata
  have hrev := map_digitChar_inj _ _
    (fun d hd => natDigitsRev_lt_ten m m d (List.mem_reverse.mp hd))
    (fun d hd => natDigitsRev_lt_ten n n d (List.mem_reverse.mp hd)) hdata
  have hdig := List.reverse_injective hrev
  have h1 := digitsRevVal_natDigitsRev m m (le_refl m)
  have h2 := digitsRevVal_natDigitsRev n n (le_refl n)
  rw [← h1, ← h2, hdig]

theorem natRepr_length_pos (n : Nat) (h : 1 ≤ n) :
    0 < (natRepr n).length := by
  obtain ⟨k, rfl⟩ : ∃ k, n = k + 1 := ⟨n - 1, by omega⟩
  simp [natRepr, natDigitsRev, String.length]

theorem candidateId_inj (base : String) (i j : Nat) (hi : 1 ≤ i)
    (hj : 1 ≤ j) (h : candidateId base i = candidateId base j) : i = j := by
  by_cases hi1 : i ≤ 1 <;> by_cases hj1 : j ≤ 1
  · omega
  · exfalso
    simp only [candidateId, if_pos hi1, if_neg hj1] at h
    have := congrArg String.length h
    simp only [String.length_append] at this
    have := natRepr_length_pos j (by omega)
    have hdq : ("-" : String).length = 1 := rfl
    omega
  · exfalso
    simp only [candidateId, if_neg hi1, if_pos hj1] at h
    have := congrArg String.length h
    simp only [String.length_append] at this
    have := natRepr_length_pos i (by omega)
    have hdq : ("-" : String).length = 1 := rfl
    omega
  · simp only [candidateId, if_neg hi1, if_neg hj1] at h
    have h2 := congrArg String.data h
    simp only [String.data_append] at h2
    have h3 := List.append_cancel_left h2
    exact natRepr_inj i j (by omega) (by omega) (String.ext h3)

theorem exists_fresh_candidate (base : String) (assigned : List String) :
    ∃ j, 1 ≤ j ∧ j ≤ assigned.length + 1
      ∧ candidateId base j ∉ assigned := by
  by_contra hcon
  push_neg at hcon
  classical
  have hmaps : ∀ k ∈ Finset.range (assigned.length + 1),
      candidateId base (k + 1) ∈ assigned.toFinset := by
    intro k hk
    simp only [Finset.mem_range] at hk
    exact List.mem_toFinset.mpr (hcon (k + 1) (by omega) (by omega))
  have hinj : Set.InjOn (fun k => candidateId base (k + 1))
      (Finset.range (assigned.length + 1)) := by
    intro a _ b _ hab
    have := candidateId_inj base (a + 1) (b + 1) (by omega) (by omega) hab
    omega
  have hcard := Finset.card_le_card_of_injOn
    (fun k => candidateId base (k + 1)) hmaps hinj
  have h2 := assigned.toFinset_card_le
  simp only [Finset.card_range] at hcard
  omega

theorem freshIdLoop_spec (base : String) (assigned : List String) :
    ∀ (fuel i : Nat),
    (∃ j, i ≤ j ∧ j ≤ i + fuel ∧ candidateId base j ∉ assigned) →
    ∃ j, i ≤ j ∧ freshIdLoop base assigned i fuel = candidateId base j
      ∧ candidateId base j ∉ assigned
      ∧ ∀ k, i ≤ k → k < j → candidateId base k ∈ assigned := by
  intro fuel
  induction fuel with
  | zero =>
      intro i ⟨j, hij, hji, hfresh⟩
      have hj : j = i := by omega
      subst hj
      exact ⟨j, le_refl j, rfl, hfresh, fun k hk1 hk2 => by omega⟩
  | succ fuel ih =>
      intro i ⟨j, hij, hji, hfresh⟩
      by_cases hmem : candidateId base i ∈ assigned
      · have hji2 : i ≠ j := fun e => hfresh (e ▸ hmem)
        obtain ⟨j2, hj2a, hj2b, hj2c, hj2d⟩ := ih (i + 1)
          ⟨j, by omega, by omega, hfresh⟩
        refine ⟨j2, by omega, ?_, hj2c, ?_⟩
        · simpa [freshIdLoop, hmem] using hj2b
        · intro k hk1 hk2
          rcases Nat.eq_or_lt_of_le hk1 with he | hlt
          · exact he ▸ hmem
          · exact hj2d k hlt hk2
      · exact ⟨i, le_refl i, by simp [freshIdLoop, hmem], hmem,
          fun k hk1 hk2 => by omega⟩

theorem makeHeaderId_spec (title : String) (assigned : List String) :
    ∃ j, 1 ≤ j
      ∧ makeHeaderId title assigned = candidateId (slugBase title) j
      ∧ candidateId (slugBase title) j ∉ assigned
      ∧ ∀ k, 1 ≤ k → k < j →
          candidateId (slugBase title) k ∈ assigned := by
  obtain ⟨j, hj1, hj2, hj3⟩ := exists_fresh_candidate (slugBase title) assigned
  exact freshIdLoop_spec (slugBase title) assigned (assigned.length + 1) 1
    ⟨j, hj1, by omega, hj3⟩

theorem makeHeaderId_fresh (title : String) (assigned : List String) :
    makeHeaderId title assigned ∉ assigned := by
  obtain ⟨j, _, heq, hfresh, _⟩ := makeHeaderId_spec title assigned
  rw [heq]
  exact hfresh

mutual
theorem assignHeader_extends : ∀ (h : Outline) (assigned : List String)
    (depth : Nat), ∃ newIds,
    assignHeader h assigned depth = assigned ++ newIds
      ∧ (assigned.Nodup → (assigned ++ newIds).Nodup)
  | .mk t subs, assigned, depth => by
      have hfresh := makeHeaderId_fresh t assigned
      by_cases hd : 1 < depth
      · obtain ⟨new2, heq, hnd⟩ := assignHeaderList_extends subs
          (assigned ++ [makeHeaderId t assigned]) (depth - 1)
        refine ⟨makeHeaderId t assigned :: new2, ?_, ?_⟩
        · simp only [assignHeader, hd, if_pos]
          simpa [List.append_assoc] using heq
        · intro hnodup
          have : (assigned ++ [makeHeaderId t assigned]).Nodup := by
            simp [List.nodup_append, hnodup, hfresh]
          have h2 := hnd this
          simpa [List.append_assoc] using h2
      · refine ⟨[makeHeaderId t assigned], ?_, ?_⟩
        · simp [assignHeader, hd]
        · intro hnodup
          simp [List.nodup_append, hnodup, hfresh]
termination_by structural h => h
theorem assignHeaderList_extends : ∀ (l : List Outline)
    (assigned : List String) (depth : Nat), ∃ newIds,
    assignHeaderList l assigned depth = assigned ++ newIds
      ∧ (assigned.Nodup → (assigned ++ newIds).Nodup)
  | [], assigned, depth => ⟨[], by simp [assignHeaderList], by simp⟩
  | h :: hs, assigned, depth => by
      obtain ⟨new1, heq1, hnd1⟩ := assignHeader_extends h assigned depth
      obtain ⟨new2, heq2, hnd2⟩ := assignHeaderList_extends hs
        (assignHeader h assigned depth) depth
      refine ⟨new1 ++ new2, ?_, ?_⟩
      · calc assignHeaderList (h :: hs) assigned depth
            = assignHeaderList hs (assignHeader h assigned depth) depth := rfl
          _ = assignHeader h assigned depth ++ new2 := heq2
          _ = (assigned ++ new1) ++ new2 := by rw [heq1]
          _ = assigned ++ (new1 ++ new2) := by rw [List.append_assoc]
      · intro hnodup
        have := hnd2
        rw [heq1] at this
        have h3 := this (hnd1 hnodup)
        simpa [List.append_assoc] using h3
termination_by structural l => l
end

/-- C3 (amended): ids assigned by assign_header_ids are pairwise distinct
across the whole document; a node whose base slug is not yet taken receives
the unsuffixed slug; and in general a node receives the first candidate
among base, base-2, base-3, ... that is not yet assigned (which, when the
base slug was already claimed as the suffixed variant of an earlier
collision, is not the unsuffixed form even for the first node with that
base). -/
theorem assign_header_ids_unique_first_candidate :
    (∀ (subs : List Outline) (depth : Nat),
      (assignHeaderIds subs depth).Nodup)
    ∧ (∀ (title : String) (assigned : List String),
      slugBase title ∉ assigned →
      makeHeaderId title assigned = slugBase title)
    ∧ (∀ (title : String) (assigned : List String),
      ∃ j, 1 ≤ j
        ∧ makeHeaderId title assigned = candidateId (slugBase title) j
        ∧ candidateId (slugBase title) j ∉ assigned
        ∧ ∀ k, 1 ≤ k → k < j →
            candidateId (slugBase title) k ∈ assigned) := by
  refine ⟨?_, ?_, makeHeaderId_spec⟩
  · intro subs depth
    obtain ⟨newIds, heq, hnd⟩ := assignHeaderList_extends subs [] depth
    have := hnd List.nodup_nil
    simpa [assignHeaderIds, heq] using this
  · intro title assigned hnot
    have hc1 : candidateId (slugBase title) 1 = slugBase title := rfl
    simp [makeHeaderId, freshIdLoop, hc1, hnot]

/-- Witness for the amended C3 at concrete inputs. -/
theorem assign_header_ids_amended_witness :
    slugBase "foo" ∉ (["bar"] : List String)
    ∧ makeHeaderId "foo" ["bar"] = slugBase "foo"
    ∧ (assignHeaderIds [.mk "foo" [.mk "foo" []], .mk "foo" []] 3).Nodup := by
  refine ⟨by decide, ?_, ?_⟩
  · exact assign_header_ids_unique_first_candidate.2.1 "foo" ["bar"]
      (by decide)
  · exact assign_header_ids_unique_first_candidate.1
      [.mk "foo" [.mk "foo" []], .mk "foo" []] 3

/-! ## C4 amended: the slug equals the run-replacement description -/

theorem slugRuns_cons_eq (c : Char) (cs : List Char) :
    slugRuns (c :: cs)
      = (match slugRuns cs with
        | [] => [[c]]
        | run :: runs =>
            match run with
            | [] => [c] :: runs
            | d :: _ =>
                if slugKeep c = slugKeep d then (c :: run) :: runs
                else [c] :: run :: runs) := rfl

theorem slugRuns_head (c : Char) (cs : List Char) :
    ∃ t rs, slugRuns (c :: cs) = (c :: t) :: rs
      ∧ ∀ d ∈ t, slugKeep d = slugKeep c := by
  induction cs generalizing c with
  | nil => exact ⟨[], [], rfl, by simp⟩
  | cons c2 cs2 ih =>
      obtain ⟨t2, rs2, heq, hom⟩ := ih c2
      by_cases hk : slugKeep c = slugKeep c2
      · refine ⟨c2 :: t2, rs2, ?_, ?_⟩
        · rw [slugRuns_cons_eq, heq]
          simp [hk]
        · intro d hd
          rcases List.mem_cons.mp hd with h | h
          · rw [h, hk]
          · rw [hom d h, hk]
      · refine ⟨[], (c2 :: t2) :: rs2, ?_, by simp⟩
        rw [slugRuns_cons_eq, heq]
        simp [hk]

theorem run_any_homog (c : Char) (t : List Char)
    (hom : ∀ d ∈ t, slugKeep d = slugKeep c) :
    (c :: t).any slugKeep = slugKeep c := by
  cases hkc : slugKeep c
  · simp only [List.any_cons, hkc, Bool.false_or]
    rw [List.any_eq_false]
    intro d hd
    rw [hom d hd, hkc]
    simp
  · simp [List.any_cons, hkc]

theorem slugSubChars_cons_keep (c : Char) (cs : List Char) (b : Bool)
    (h : slugKeep c = true) :
    slugSubChars (c :: cs) b = c :: slugSubChars cs false := by
  simp [slugSubChars, h]

theorem slugSubChars_cons_drop_false (c : Char) (cs : List Char)
    (h : slugKeep c = false) :
    slugSubChars (c :: cs) false = Char.ofNat 45 :: slugSubChars cs true := by
  simp [slugSubChars, h]

theorem slugSubChars_cons_drop_true (c : Char) (cs : List Char)
    (h : slugKeep c = false) :
    slugSubChars (c :: cs) true = slugSubChars cs true := by
  simp [slugSubChars, h]

theorem slugSub_eq_runs (l : List Char) :
    slugSubChars l false = ((slugRuns l).map runRender).flatten
    ∧ slugSubChars l true = (match l.head? with
        | some c =>
            if slugKeep c then ((slugRuns l).map runRender).flatten
            else (((slugRuns l).map runRender).flatten).tail
        | none => []) := by
  induction l with
  | nil => exact ⟨rfl, rfl⟩
  | cons c cs ih =>
      obtain ⟨ihA, ihB⟩ := ih
      cases cs with
      | nil =>
          by_cases hk : slugKeep c <;>
            simp [slugSubChars, slugRuns, runRender, hk]
      | cons c2 cs2 =>
          obtain ⟨t2, rs2, hruns, hom⟩ := slugRuns_head c2 cs2
          have hrender2 : runRender (c2 :: t2)
              = if slugKeep c2 then c2 :: t2 else [Char.ofNat 45] := by
            rw [runRender, run_any_homog c2 t2 hom]
          by_cases hk : slugKeep c = slugKeep c2
          · have hsr : slugRuns (c :: c2 :: cs2) = (c :: c2 :: t2) :: rs2 := by
              rw [slugRuns_cons_eq, hruns]
              simp [hk]
            have homc : ∀ d ∈ c2 :: t2, slugKeep d = slugKeep c := by
              intro d hd
              rcases List.mem_cons.mp hd with h | h
              · rw [h, hk]
              · rw [hom d h, hk]
            have hrenderc : runRender (c :: c2 :: t2)
                = if slugKeep c then c :: c2 :: t2 else [Char.ofNat 45] := by
              rw [runRender, run_any_homog c (c2 :: t2) homc]
            by_cases hkc : slugKeep c
            · have hkc2 : slugKeep c2 = true := by rw [← hk]; exact hkc
              have hA : slugSubChars (c :: c2 :: cs2) false
                  = c :: slugSubChars (c2 :: cs2) false :=
                slugSubChars_cons_keep c (c2 :: cs2) false hkc
              have hB : slugSubChars (c :: c2 :: cs2) true
                  = c :: slugSubChars (c2 :: cs2) false :=
                slugSubChars_cons_keep c (c2 :: cs2) true hkc
              constructor
              · rw [hA, ihA, hruns, hsr]
                simp [hrenderc, hrender2, hkc, hkc2]
              · rw [hB, ihA, hruns]
                simp [hsr, hrenderc, hrender2, hkc, hkc2]
            · have hkc2 : slugKeep c2 = false := by
                rw [← hk]
                exact Bool.eq_false_iff.mpr hkc
              have hkcf : slugKeep c = false := Bool.eq_false_iff.mpr hkc
              have htail : slugSubChars (c2 :: cs2) true
                  = ((rs2.map runRender)).flatten := by
                rw [ihB]
                simp [hkc2, hruns, hrender2]
              constructor
              · rw [slugSubChars_cons_drop_false c (c2 :: cs2) hkcf, htail,
                  hsr]
                simp [hrenderc, hkcf]
              · rw [slugSubChars_cons_drop_true c (c2 :: cs2) hkcf, htail]
                simp [hsr, hrenderc, hkcf]
          · have hsr : slugRuns (c :: c2 :: cs2)
                = [c] :: (c2 :: t2) :: rs2 := by
              rw [slugRuns_cons_eq, hruns]
              simp [hk]
            by_cases hkc : slugKeep c
            · have hr1 : runRender [c] = [c] := by simp [runRender, hkc]
              have hA : slugSubChars (c :: c2 :: cs2) false
                  = c :: slugSubChars (c2 :: cs2) false :=
                slugSubChars_cons_keep c (c2 :: cs2) false hkc
              have hB : slugSubChars (c :: c2 :: cs2) true
                  = c :: slugSubChars (c2 :: cs2) false :=
                slugSubChars_cons_keep c (c2 :: cs2) true hkc
              constructor
              · rw [hA, ihA, hsr]
                simp [hr1, hruns]
              · rw [hB, ihA]
                simp [hsr, hr1, hruns, hkc]
            · have hkc2 : slugKeep c2 = true := by
                cases h2 : slugKeep c2
                · exact absurd (by rw [Bool.eq_false_iff.mpr hkc, h2]) hk
                · rfl
              have hkcf : slugKeep c = false := Bool.eq_false_iff.mpr hkc
              have hr1 : runRender [c] = [Char.ofNat 45] := by
                simp [runRender, hkcf]
              have htail : slugSubChars (c2 :: cs2) true
                  = ((slugRuns (c2 :: cs2)).map runRender).flatten := by
                rw [ihB]
                simp [hkc2]
              constructor
              · rw [slugSubChars_cons_drop_false c (c2 :: cs2) hkcf, htail,
                  hsr]
                simp [hr1, hruns]
              · rw [slugSubChars_cons_drop_true c (c2 :: cs2) hkcf, htail]
                simp [hsr, hr1, hruns, hkcf]

/-- C4 (amended): for every ASCII title, the base slug _make_header_id
computes equals the slug the spec describes minus the lowercasing step:
every maximal run of characters outside the slug character set becomes one
hyphen, then leading and trailing hyphens are stripped; the title case is
preserved.  The ASCII hypothesis marks the domain on which the embedded
character class coincides with the Unicode word-character class of the
source regex (outside it the source keeps non-ASCII word characters the
claimed ASCII class would replace). -/
theorem slug_base_matches_run_description (title : String)
    (h : isAsciiString title = true) :
    slugBase title = specSlugNoLower title := by
  simp only [slugBase, specSlugNoLower]
  rw [(slugSub_eq_runs title.toList).1]

/-- Witness for the amended C4 at a concrete ASCII title. -/
theorem slug_base_run_description_witness :
    isAsciiString "My Header 2!" = true
    ∧ slugBase "My Header 2!" = specSlugNoLower "My Header 2!"
    ∧ slugBase "My Header 2!" = "My-Header-2" := by
  refine ⟨rfl, ?_, by decide⟩
  exact slug_base_matches_run_description "My Header 2!" rfl

/-! ## C1 amended: node-free trees deserialize with null placeholders -/

mutual
theorem fromJson_wf : ∀ j : Json, wfJson j = true →
    fromJson j = .ok (specValue j, specMsgs j)
  | .null, _ => rfl
  | .bool b, _ => rfl
  | .num n, _ => rfl
  | .str s, _ => rfl
  | .arr items, h => by
      have h2 := fromJsonList_wf items (by simpa [wfJson] using h)
      simp [fromJson, specValue, specMsgs, h2]
  | .obj fields, h => by
      simp only [wfJson] at h
      cases hlook : fields.lookup jsonTypeKey with
      | none =>
          rw [hlook] at h
          have h2 := fromJsonMapping_wf fields h
          simp [fromJson, specValue, specMsgs, hlook, h2]
      | some val =>
          rw [hlook] at h
          cases val with
          | str tag =>
              by_cases hm : tag = "mapping"
              · subst hm
                simp only [reduceIte] at h
                have h2 := fromJsonMapping_wf fields h
                simp [fromJson, specValue, specMsgs, hlook, h2]
              · by_cases he : tag = "error"
                · subst he
                  simp only [reduceIte, Bool.and_eq_true] at h
                  cases hmsg : fields.lookup "message" with
                  | none => rw [hmsg] at h; simp at h
                  | some msg =>
                      simp [fromJson, specValue, specMsgs, hlook, hmsg]
                · simp [hm, he] at h
          | null => simp at h
          | bool b => simp at h
          | num n => simp at h
          | arr its => simp at h
          | obj fs2 => simp at h
termination_by structural j => j
theorem fromJsonList_wf : ∀ l : JsonList, wfJsonList l = true →
    fromJsonList l = .ok (specValueList l, specMsgsList l)
  | .nil, _ => rfl
  | .cons x tl, h => by
      simp only [wfJsonList, Bool.and_eq_true] at h
      have h1 := fromJson_wf x h.1
      have h2 := fromJsonList_wf tl h.2
      simp [fromJsonList, h1, h2, specValueList, specMsgsList]
termination_by structural l => l
theorem fromJsonMapping_wf : ∀ fs : JsonFields, wfJsonFields fs = true →
    fromJsonMapping fs = .ok (.dict (specValueFields fs), specMsgsFields fs)
  | .nil, _ => rfl
  | .cons k v tl, h => by
      simp only [wfJsonFields, Bool.and_eq_true, Bool.or_eq_true,
        decide_eq_true_eq] at h
      by_cases hk : k = jsonTypeKey
      · have h2 := fromJsonMapping_wf tl h.2
        simp [fromJsonMapping, hk, h2, specValueFields, specMsgsFields]
      · have hv : wfJson v = true := by
          rcases h.1 with h1 | h1
          · exact absurd h1 hk
          · exact h1
        have h1 := fromJson_wf v hv
        have h2 := fromJsonMapping_wf tl h.2
        simp [fromJsonMapping, hk, h1, h2, specValueFields, specMsgsFields]
termination_by structural fs => fs
end

mutual
theorem specMsgs_len : ∀ j : Json, wfJson j = true →
    (specMsgs j).length = errCount j
  | .null, _ => rfl
  | .bool b, _ => rfl
  | .num n, _ => rfl
  | .str s, _ => rfl
  | .arr items, h => by
      have h2 := specMsgsList_len items (by simpa [wfJson] using h)
      simp [specMsgs, errCount, h2]
  | .obj fields, h => by
      simp only [wfJson] at h
      cases hlook : fields.lookup jsonTypeKey with
      | none =>
          rw [hlook] at h
          have h2 := specMsgsFields_len fields h
          simp [specMsgs, errCount, hlook, h2]
      | some val =>
          rw [hlook] at h
          cases val with
          | str tag =>
              by_cases hm : tag = "mapping"
              · subst hm
                simp only [reduceIte] at h
                have h2 := specMsgsFields_len fields h
                simp [specMsgs, errCount, hlook, h2]
              · by_cases he : tag = "error"
                · subst he
                  simp only [reduceIte, Bool.and_eq_true] at h
                  cases hmsg : fields.lookup "message" with
                  | none => rw [hmsg] at h; simp at h
                  | some msg => simp [specMsgs, errCount, hlook, hmsg]
                · simp [hm, he] at h
          | null => simp at h
          | bool b => simp at h
          | num n => simp at h
          | arr its => simp at h
          | obj fs2 => simp at h
termination_by structural j => j
theorem specMsgsList_len : ∀ l : JsonList, wfJsonList l = true →
    (specMsgsList l).length = errCountList l
  | .nil, _ => rfl
  | .cons x tl, h => by
      simp only [wfJsonList, Bool.and_eq_true] at h
      have h1 := specMsgs_len x h.1
      have h2 := specMsgsList_len tl h.2
      simp [specMsgsList, errCountList, h1, h2]
termination_by structural l => l
theorem specMsgsFields_len : ∀ fs : JsonFields, wfJsonFields fs = true →
    (specMsgsFields fs).length = errCountFields fs
  | .nil, _ => rfl
  | .cons k v tl, h => by
      simp only [wfJsonFields, Bool.and_eq_true, Bool.or_eq_true,
        decide_eq_true_eq] at h
      by_cases hk : k = jsonTypeKey
      · have h2 := specMsgsFields_len tl h.2
        simp [specMsgsFields, errCountFields, hk, h2]
      · have hv : wfJson v = true := by
          rcases h.1 with h1 | h1
          · exact absurd h1 hk
          · exact h1
        have h1 := specMsgs_len v hv
        have h2 := specMsgsFields_len tl h.2
        simp [specMsgsFields, errCountFields, hk, h1, h2]
termination_by structural fs => fs
end

/-- C1 (amended): a node-free well-formed JSON tree (objects tagged
mapping or error only, error records carrying a message; org-node records
currently raise TypeError from a constructor keyword mismatch)
deserializes successfully to the spec-side translation, which places a
null placeholder exactly at the position of every error record, and the
number of printed Parse error messages equals the number of error records;
so a tree with exactly one error record prints exactly one message.  No
diagnostics list or tree position is attached to any meta dict. -/
theorem deserialize_error_records_amended (j : Json)
    (hwf : wfJson j = true) :
    fromJson j = .ok (specValue j, specMsgs j)
    ∧ (specMsgs j).length = errCount j :=
  ⟨fromJson_wf j hwf, specMsgs_len j hwf⟩

/-- Witness for the amended C1 on a concrete document holding exactly one
error record. -/
theorem deserialize_error_records_amended_witness :
    wfJson (.arr (.cons (.str "a") (.cons (.obj (.cons "$$data_type"
        (.str "error") (.cons "message" (.str "oops") .nil))) .nil)))
      = true
    ∧ errCount (.arr (.cons (.str "a") (.cons (.obj (.cons "$$data_type"
        (.str "error") (.cons "message" (.str "oops") .nil))) .nil))) = 1
    ∧ fromJson (.arr (.cons (.str "a") (.cons (.obj (.cons "$$data_type"
        (.str "error") (.cons "message" (.str "oops") .nil))) .nil)))
      = .ok (specValue (.arr (.cons (.str "a") (.cons (.obj (.cons
          "$$data_type" (.str "error") (.cons "message" (.str "oops")
          .nil))) .nil))),
        specMsgs (.arr (.cons (.str "a") (.cons (.obj (.cons "$$data_type"
          (.str "error") (.cons "message" (.str "oops") .nil))) .nil)))) := by
  refine ⟨rfl, rfl, ?_⟩
  exact (deserialize_error_records_amended (.arr (.cons (.str "a")
    (.cons (.obj (.cons "$$data_type" (.str "error")
      (.cons "message" (.str "oops") .nil))) .nil))) rfl).1

/-! ## C1 counterexample: a node record aborts deserialization -/

/-- C1 (counterexample): a document consisting of one node record whose
contents hold exactly one error record does not deserialize: the node
constructor call raises TypeError (io passes props= to a constructor whose
parameter is named properties), so the whole-document success the claim
asserts fails; no diagnostics list is ever attached to a meta dict. -/
theorem error_record_inside_node_record_raises :
    fromJson (.obj (.cons "$$data_type" (.str "org-node")
        (.cons "type" (.str "paragraph") (.cons "ref" .null
        (.cons "properties" (.obj .nil)
        (.cons "contents" (.arr (.cons (.obj (.cons "$$data_type"
          (.str "error") (.cons "message" (.str "oops") .nil))) .nil))
          .nil))))))
      = .error "TypeError: unexpected keyword argument props"
    ∧ errCount (.obj (.cons "$$data_type" (.str "org-node")
        (.cons "type" (.str "paragraph") (.cons "ref" .null
        (.cons "properties" (.obj .nil)
        (.cons "contents" (.arr (.cons (.obj (.cons "$$data_type"
          (.str "error") (.cons "message" (.str "oops") .nil))) .nil))
          .nil)))))) = 1 := by
  exact ⟨rfl, rfl⟩

end Pyorg
